import Mathlib

/-!
Verification of the usage-signals aggregation pipeline
(ee/billing/salesforce_enrichment/usage_signals.py) and of the companion
Salesforce workflow / toolbar OAuth behaviour described by the spec.

Python numbers are modelled as `Nat` (counters), `Int` (UTC timestamps in
seconds, so `timedelta(days=k)` is `k * 86400` and `timedelta.days` is
floor division by 86400, matching Python's semantics) and `ℚ` (results of
Python's true division `/`).  Fallible lookups return `Option`.
-/

set_option maxHeartbeats 1000000

namespace Posthog

/-- First-occurrence deduplication helper (Python `dict` key semantics:
keys appear in first-insertion order).  `seen` accumulates keys already
emitted. -/
def firstDedupAux {α : Type} [DecidableEq α] : List α → List α → List α
  | [], _ => []
  | a :: l, seen => if a ∈ seen then firstDedupAux l seen else a :: firstDedupAux l (a :: seen)

/-- Key list of a Python dict comprehension iterating over `l`. -/
def firstDedup {α : Type} [DecidableEq α] (l : List α) : List α :=
  firstDedupAux l []

/-- Python `d[k]` / `d.get(k)` on a dict represented as an association
list.  Every dict in the embedded code is built with pairwise-distinct
keys (query results are grouped, comprehension keys are deduplicated), so
first-match lookup is exact. -/
def findVal {κ ν : Type} [DecidableEq κ] (l : List (κ × ν)) (k : κ) : Option ν :=
  (l.find? (fun p => decide (p.1 = k))).map (·.2)

/-- Python `d.get(k, default)`. -/
def findValD {κ ν : Type} [DecidableEq κ] (l : List (κ × ν)) (k : κ) (d : ν) : ν :=
  (findVal l k).getD d

/-! ### Data model (usage_signals.py) -/

/-- `TeamUsageSignals` dataclass: usage signals for a single team from ClickHouse. -/
structure TeamUsageSignals where
  team_id : Nat
  active_persons : Nat
  active_distinct_ids : Nat
  session_count : Nat
  total_events : Nat
  has_feature_flags : Bool
  has_surveys : Bool
  has_error_tracking : Bool
  has_ai : Bool
deriving DecidableEq, Repr

/-- `OrgAggregatedSignals` dataclass: aggregated signals at organization level. -/
structure OrgAggregatedSignals where
  active_users : Nat
  sessions : Nat
  total_events : Nat
  events_per_session : Option ℚ
  products_activated : List String
deriving DecidableEq, Repr

/-- `OrgAggregatedSignals()` with all dataclass defaults. -/
def OrgAggregatedSignals.empty : OrgAggregatedSignals :=
  ⟨0, 0, 0, none, []⟩

/-- `UsageSignals` dataclass: complete usage signals for an organization. -/
structure UsageSignals where
  active_users_7d : Nat
  sessions_7d : Nat
  events_per_session_7d : Option ℚ
  insights_per_user_7d : Option ℚ
  dashboards_per_user_7d : Option ℚ
  products_activated_7d : List String
  active_users_30d : Nat
  sessions_30d : Nat
  events_per_session_30d : Option ℚ
  insights_per_user_30d : Option ℚ
  dashboards_per_user_30d : Option ℚ
  products_activated_30d : List String
  active_users_7d_momentum : Option ℚ
  sessions_7d_momentum : Option ℚ
  events_per_session_7d_momentum : Option ℚ
  active_users_30d_momentum : Option ℚ
  sessions_30d_momentum : Option ℚ
  events_per_session_30d_momentum : Option ℚ
  days_since_last_login : Option Int
deriving DecidableEq, Repr

/-- `UsageSignals()` with all dataclass defaults (zeros, `None`s, `[]`s). -/
def UsageSignals.empty : UsageSignals :=
  ⟨0, 0, none, none, none, [], 0, 0, none, none, none, [],
   none, none, none, none, none, none, none⟩

/-- `PRODUCT_FLAGS`: mapping of product attribute names to their output names,
in source order.  Each attribute is embedded as its field accessor. -/
def PRODUCT_FLAGS : List ((TeamUsageSignals → Bool) × String) :=
  [(TeamUsageSignals.has_feature_flags, "feature_flags"),
   (TeamUsageSignals.has_surveys, "surveys"),
   (TeamUsageSignals.has_error_tracking, "error_tracking"),
   (TeamUsageSignals.has_ai, "ai")]

/-- `calc_momentum(current, previous)`: percentage change, `None` if `previous` is zero. -/
def calc_momentum (current previous : ℚ) : Option ℚ :=
  if previous = 0 then none
  else some (((current - previous) / previous) * 100)

/-- `aggregate_teams_to_org(team_signals)`: sums metrics, ORs product flags. -/
def aggregate_teams_to_org (team_signals : List TeamUsageSignals) : OrgAggregatedSignals :=
  if team_signals = [] then OrgAggregatedSignals.empty
  else
    let total_active_users : Nat := (team_signals.map (·.active_persons)).sum
    let total_sessions : Nat := (team_signals.map (·.session_count)).sum
    let total_events : Nat := (team_signals.map (·.total_events)).sum
    let events_per_session : Option ℚ :=
      if 0 < total_sessions then some ((total_events : ℚ) / (total_sessions : ℚ)) else none
    let products :=
      PRODUCT_FLAGS.filterMap (fun p => if team_signals.any p.1 then some p.2 else none)
    ⟨total_active_users, total_sessions, total_events, events_per_session, products⟩

/-- `_calc_eps_momentum(current, previous)`. -/
def calc_eps_momentum (current previous : OrgAggregatedSignals) : Option ℚ :=
  match current.events_per_session, previous.events_per_session with
  | some c, some p => calc_momentum c p
  | _, _ => none

/-- `_get_products_with_recordings(products, team_ids, recordings)`. -/
def get_products_with_recordings (products : List String) (team_ids : List Nat)
    (recordings : List (Nat × Nat)) : List String :=
  let has_recordings := team_ids.any (fun tid => decide (0 < findValD recordings tid 0))
  if has_recordings && !(products.contains "recordings") then products ++ ["recordings"]
  else products

/-- `_per_user_metric(count, active_users)`. -/
def per_user_metric (count : Nat) (active_users : Nat) : Option ℚ :=
  if 0 < active_users then some ((count : ℚ) / (active_users : ℚ)) else none

/-! ### External stores

The analytical and relational stores are embedded as row lists; each query
function computes exactly what its SQL / ORM query computes on those rows,
and additionally reports the store queries it issued (empty when the
source short-circuits before querying). -/

/-- One row of the ClickHouse `events` table (the columns the query reads). -/
structure EventRow where
  team_id : Nat
  person_id : String
  distinct_id : String
  session_id : String
  event : String
  timestamp : Int
deriving DecidableEq, Repr

/-- One row of the ClickHouse `session_replay_events` table. -/
structure ReplayRow where
  team_id : Nat
  session_id : String
  min_first_timestamp : Int
deriving DecidableEq, Repr

/-- One row of the relational `Team` table. -/
structure TeamRow where
  id : Nat
  organization_id : String
deriving DecidableEq, Repr

/-- One `OrganizationMembership` row joined with its user's `last_login`. -/
structure MembershipRow where
  organization_id : String
  last_login : Option Int
deriving DecidableEq, Repr

/-- One `Dashboard` / `Insight` row (via `team__organization_id`). -/
structure ModelRow where
  organization_id : String
  created_at : Int
  deleted : Bool
deriving DecidableEq, Repr

/-- All external state one orchestration call reads. -/
structure Store where
  teams : List TeamRow
  events : List EventRow
  replays : List ReplayRow
  dashboards : List ModelRow
  insights : List ModelRow
  memberships : List MembershipRow
deriving DecidableEq, Repr

/-- A store query issued by the pipeline, with the arguments it observed. -/
inductive QueryCall where
  | teamsQ (org_ids : List String)
  | signalsQ (b e : Int) (team_ids : List Nat)
  | recordingsQ (b e : Int) (team_ids : List Nat)
  | dashboardsQ (b e : Int) (org_ids : List String)
  | insightsQ (b e : Int) (org_ids : List String)
  | loginQ (org_ids : List String) (now : Int)
deriving DecidableEq, Repr

/-- `get_team_ids_for_orgs(org_ids)`: mapping of organization IDs to their
team IDs (every requested id gets a key, teams in table order). -/
def get_team_ids_for_orgs (table : List TeamRow) (org_ids : List String) :
    List (String × List Nat) × List QueryCall :=
  if org_ids = [] then ([], [])
  else
    ((firstDedup org_ids).map (fun oid =>
        (oid, (table.filter (fun t => decide (t.organization_id = oid))).map (·.id))),
     [.teamsQ org_ids])

/-- `get_org_login_recency(org_ids)`: days since most recent member login per
organization. `now` is the clock value this function reads itself
(`datetime.now` inside the function body). -/
def get_org_login_recency (membs : List MembershipRow) (now : Int) (org_ids : List String) :
    List (String × Option Int) × List QueryCall :=
  if org_ids = [] then ([], [])
  else
    let rows := membs.filter (fun m => decide (m.organization_id ∈ org_ids))
    (((rows.map (·.organization_id)).dedup).map (fun oid =>
        (oid,
         match ((rows.filter (fun m => decide (m.organization_id = oid))).filterMap
                  (·.last_login)).max? with
         | none => none
         | some m => some ((now - m).fdiv 86400))),
     [.loginQ org_ids now])

/-- `_get_org_model_count(model, org_ids, period_start, period_end)`:
creation counts per organization, excluding soft-deleted rows. -/
def get_org_model_count (rows : List ModelRow) (org_ids : List String)
    (period_start period_end : Int) (tag : QueryCall) :
    List (String × Nat) × List QueryCall :=
  if org_ids = [] then ([], [])
  else
    let sel := rows.filter (fun r => decide (r.organization_id ∈ org_ids)
                  && decide (period_start ≤ r.created_at) && decide (r.created_at < period_end)
                  && !r.deleted)
    (((sel.map (·.organization_id)).dedup).map (fun oid =>
        (oid, (sel.filter (fun r => decide (r.organization_id = oid))).length)),
     [tag])

/-- One output row of the wide aggregation query of
`get_teams_with_usage_signals_in_period`: the per-team aggregates over
that team's rows in the window. -/
def teamSignalsOfRows (t : Nat) (trows : List EventRow) : TeamUsageSignals :=
  { team_id := t
    active_persons := ((trows.map (·.person_id)).dedup).length
    active_distinct_ids := ((trows.map (·.distinct_id)).dedup).length
    session_count := ((trows.map (·.session_id)).dedup).length
    total_events := trows.length
    has_feature_flags := trows.any (fun r => r.event == "decide usage")
      || trows.any (fun r => r.event == "local evaluation usage")
    has_surveys := trows.any (fun r => r.event == "survey sent")
    has_error_tracking := trows.any (fun r => r.event == "$exception")
    has_ai := trows.any (fun r => r.event == "$ai_generation" || r.event == "$ai_trace") }

/-- `get_teams_with_usage_signals_in_period(begin, end, team_ids)`: the wide
ClickHouse aggregation, one `TeamUsageSignals` per team with at least one
event in the window. -/
def get_teams_with_usage_signals_in_period (events : List EventRow)
    (b e : Int) (team_ids : List Nat) : List TeamUsageSignals × List QueryCall :=
  if team_ids = [] then ([], [])
  else
    let rows := events.filter (fun r => decide (r.team_id ∈ team_ids)
                  && decide (b ≤ r.timestamp) && decide (r.timestamp < e))
    (((rows.map (·.team_id)).dedup).map (fun t =>
        teamSignalsOfRows t (rows.filter (fun r => decide (r.team_id = t)))),
     [QueryCall.signalsQ b e team_ids])

/-- Rows of `session_replay_events` selected by the inner query: team in
the requested set, `min_first_timestamp` within the lookback range
`[previous_begin, e)` with `previous_begin = b - (e - b)`. -/
def recRows (replays : List ReplayRow) (b e : Int) (team_ids : List Nat) : List ReplayRow :=
  replays.filter (fun r => decide (r.team_id ∈ team_ids)
    && decide (b - (e - b) ≤ r.min_first_timestamp) && decide (r.min_first_timestamp < e))

/-- `GROUP BY team_id, session_id` keys of the inner query. -/
def recKeys (replays : List ReplayRow) (b e : Int) (team_ids : List Nat) :
    List (Nat × String) :=
  ((recRows replays b e team_ids).map (fun r => (r.team_id, r.session_id))).dedup

/-- `min(min_first_timestamp)` of one inner-query group (groups are
nonempty, so the `getD` default is never observed). -/
def recFirstTs (replays : List ReplayRow) (b e : Int) (team_ids : List Nat)
    (k : Nat × String) : Int :=
  ((((recRows replays b e team_ids).filter (fun r => decide (r.team_id = k.1)
      && decide (r.session_id = k.2))).map (·.min_first_timestamp)).min?).getD 0

/-- `countIf(first_ts >= b AND first_ts < e)` of the outer query's group
for team `t`. -/
def recCnt (replays : List ReplayRow) (b e : Int) (team_ids : List Nat) (t : Nat) : Nat :=
  ((recKeys replays b e team_ids).filter (fun k => decide (k.1 = t)
    && decide (b ≤ recFirstTs replays b e team_ids k)
    && decide (recFirstTs replays b e team_ids k < e))).length

/-- `get_teams_with_recordings_in_period(begin, end, team_ids)`: per-team
count of replay sessions whose first-seen timestamp (minimum
`min_first_timestamp` over the one-window lookback) falls in `[b, e)`;
teams with zero such sessions are dropped (`HAVING count > 0`). -/
def get_teams_with_recordings_in_period (replays : List ReplayRow)
    (b e : Int) (team_ids : List Nat) : List (Nat × Nat) × List QueryCall :=
  if team_ids = [] then ([], [])
  else if e ≤ b then ([], [])
  else
    ((((recKeys replays b e team_ids).map (·.1)).dedup).filterMap (fun t =>
        if 0 < recCnt replays b e team_ids t
        then some (t, recCnt replays b e team_ids t) else none),
     [.recordingsQ b e team_ids])

/-! ### Orchestration (`aggregate_usage_signals_for_orgs`) -/

/-- The `_PeriodData` dataclass. -/
structure PeriodData where
  signals_by_team : List TeamUsageSignals
  prev_signals_by_team : List TeamUsageSignals
  recordings : List (Nat × Nat)
  dashboards : List (String × Nat)
  insights : List (String × Nat)
deriving DecidableEq, Repr

/-- Lookup in the `{s.team_id: s for s in signals}` dict (team ids are
distinct because the query groups by team). -/
def sigLookup (l : List TeamUsageSignals) (tid : Nat) : Option TeamUsageSignals :=
  l.find? (fun s => decide (s.team_id = tid))

/-- The inner `fetch_period_data(start, end, prev_start)` closure. -/
def fetch_period_data (store : Store) (all_team_ids : List Nat) (org_ids : List String)
    (start stop prev_start : Int) : PeriodData × List QueryCall :=
  let s := get_teams_with_usage_signals_in_period store.events start stop all_team_ids
  let p := get_teams_with_usage_signals_in_period store.events prev_start start all_team_ids
  let r := get_teams_with_recordings_in_period store.replays start stop all_team_ids
  let d := get_org_model_count store.dashboards org_ids start stop (.dashboardsQ start stop org_ids)
  let i := get_org_model_count store.insights org_ids start stop (.insightsQ start stop org_ids)
  (⟨s.1, p.1, r.1, d.1, i.1⟩, s.2 ++ p.2 ++ r.2 ++ d.2 ++ i.2)

/-- Per-organization assembly of the final `UsageSignals` record (the body of
the `for org_id in org_ids` loop). -/
def build_org_signals (org_to_teams : List (String × List Nat))
    (p7 p30 : PeriodData) (login_recency : List (String × Option Int))
    (org_id : String) : UsageSignals :=
  let team_ids := findValD org_to_teams org_id []
  let agg_7d := aggregate_teams_to_org (team_ids.filterMap (sigLookup p7.signals_by_team))
  let agg_7d_prev := aggregate_teams_to_org (team_ids.filterMap (sigLookup p7.prev_signals_by_team))
  let agg_30d := aggregate_teams_to_org (team_ids.filterMap (sigLookup p30.signals_by_team))
  let agg_30d_prev :=
    aggregate_teams_to_org (team_ids.filterMap (sigLookup p30.prev_signals_by_team))
  { active_users_7d := agg_7d.active_users
    sessions_7d := agg_7d.sessions
    events_per_session_7d := agg_7d.events_per_session
    insights_per_user_7d := per_user_metric (findValD p7.insights org_id 0) agg_7d.active_users
    dashboards_per_user_7d := per_user_metric (findValD p7.dashboards org_id 0) agg_7d.active_users
    products_activated_7d :=
      get_products_with_recordings agg_7d.products_activated team_ids p7.recordings
    active_users_30d := agg_30d.active_users
    sessions_30d := agg_30d.sessions
    events_per_session_30d := agg_30d.events_per_session
    insights_per_user_30d := per_user_metric (findValD p30.insights org_id 0) agg_30d.active_users
    dashboards_per_user_30d :=
      per_user_metric (findValD p30.dashboards org_id 0) agg_30d.active_users
    products_activated_30d :=
      get_products_with_recordings agg_30d.products_activated team_ids p30.recordings
    active_users_7d_momentum :=
      calc_momentum (agg_7d.active_users : ℚ) (agg_7d_prev.active_users : ℚ)
    sessions_7d_momentum := calc_momentum (agg_7d.sessions : ℚ) (agg_7d_prev.sessions : ℚ)
    events_per_session_7d_momentum := calc_eps_momentum agg_7d agg_7d_prev
    active_users_30d_momentum :=
      calc_momentum (agg_30d.active_users : ℚ) (agg_30d_prev.active_users : ℚ)
    sessions_30d_momentum := calc_momentum (agg_30d.sessions : ℚ) (agg_30d_prev.sessions : ℚ)
    events_per_session_30d_momentum := calc_eps_momentum agg_30d agg_30d_prev
    days_since_last_login := (findVal login_recency org_id).getD none }

/-- The flattened team-id list the orchestration derives once and shares. -/
def allTeamIds (store : Store) (org_ids : List String) : List Nat :=
  (((get_team_ids_for_orgs store.teams org_ids).1).map (·.2)).flatten

/-- `aggregate_usage_signals_for_orgs(org_ids)`.  The source reads the wall
clock twice: `now_orch` at the top of the orchestration (line defining the
four windows) and `now_login` inside `get_org_login_recency`; both reads
are explicit parameters here. -/
def aggregate_usage_signals_for_orgs (store : Store) (now_orch now_login : Int)
    (org_ids : List String) : List (String × UsageSignals) × List QueryCall :=
  if org_ids = [] then ([], [])
  else if allTeamIds store org_ids = [] then
    ((firstDedup org_ids).map (fun oid => (oid, UsageSignals.empty)),
     (get_team_ids_for_orgs store.teams org_ids).2)
  else
    ((firstDedup org_ids).map (fun oid =>
        (oid, build_org_signals (get_team_ids_for_orgs store.teams org_ids).1
          (fetch_period_data store (allTeamIds store org_ids) org_ids
            (now_orch - 7 * 86400) now_orch ((now_orch - 7 * 86400) - 7 * 86400)).1
          (fetch_period_data store (allTeamIds store org_ids) org_ids
            (now_orch - 30 * 86400) now_orch ((now_orch - 30 * 86400) - 30 * 86400)).1
          (get_org_login_recency store.memberships now_login org_ids).1 oid)),
     (get_team_ids_for_orgs store.teams org_ids).2
       ++ (fetch_period_data store (allTeamIds store org_ids) org_ids
            (now_orch - 7 * 86400) now_orch ((now_orch - 7 * 86400) - 7 * 86400)).2
       ++ (fetch_period_data store (allTeamIds store org_ids) org_ids
            (now_orch - 30 * 86400) now_orch ((now_orch - 30 * 86400) - 30 * 86400)).2
       ++ (get_org_login_recency store.memberships now_login org_ids).2)

/-! ### CRM record translation and bulk update (spec-modelled)

The workflow module `posthog/temporal/salesforce_enrichment/usage_workflow.py`
is not part of the reviewed sources (only its tests are), so the two
functions below are modelled from the spec. -/

/-- Lexicographic code-point comparison of character lists (Python string
ordering restricted to the product-name alphabet). -/
def charsLe : List Char → List Char → Bool
  | [], _ => true
  | _ :: _, [] => false
  | a :: as, b :: bs =>
    if a.toNat < b.toNat then true
    else if b.toNat < a.toNat then false
    else charsLe as bs

/-- Python `<=` on strings. -/
def strLeB (a b : String) : Bool :=
  charsLe a.data b.data

/-- Insert into a sorted list (auxiliary step of `sorted`). -/
def insertSorted (a : String) : List String → List String
  | [] => [a]
  | b :: l => if strLeB a b then a :: b :: l else b :: insertSorted a l

/-- Python `sorted` on a list of strings (insertion sort; order agrees with
Python's lexicographic comparison, duplicates are kept). -/
def sortStrings : List String → List String
  | [] => []
  | a :: l => insertSorted a (sortStrings l)

/-- Python `",".join(sorted(products))`. -/
def joinSortedComma (l : List String) : String :=
  String.intercalate "," (sortStrings l)

/-- A Salesforce field value. -/
inductive SFValue where
  | nat (n : Nat)
  | rat (q : ℚ)
  | int (i : Int)
  | str (s : String)
deriving DecidableEq, Repr

/-- A nullable ℚ field: present under `name` only when non-null. -/
def optRat (name : String) (v : Option ℚ) : List (String × SFValue) :=
  match v with
  | none => []
  | some q => [(name, .rat q)]

/-- A nullable Int field: present under `name` only when non-null. -/
def optInt (name : String) (v : Option Int) : List (String × SFValue) :=
  match v with
  | none => []
  | some i => [(name, .int i)]

/-- Modelled from the spec: `prepare_salesforce_update_record` (in the
absent workflow module).  The account identifier is always present under
the fixed key `Id`; every other field maps through the fixed name table
(names as asserted by the workflow tests) only when its source value is
non-null; the two activated-products lists are always emitted as a sorted
comma-joined string. -/
def prepare_salesforce_update_record (account_id : String) (s : UsageSignals) :
    List (String × SFValue) :=
  [("Id", .str account_id),
   ("posthog_active_users_7d__c", .nat s.active_users_7d),
   ("posthog_sessions_7d__c", .nat s.sessions_7d),
   ("posthog_active_users_30d__c", .nat s.active_users_30d),
   ("posthog_sessions_30d__c", .nat s.sessions_30d)]
  ++ optRat "posthog_events_per_session_7d__c" s.events_per_session_7d
  ++ optRat "posthog_insights_per_user_7d__c" s.insights_per_user_7d
  ++ optRat "posthog_dashboards_per_user_7d__c" s.dashboards_per_user_7d
  ++ optRat "posthog_events_per_session_30d__c" s.events_per_session_30d
  ++ optRat "posthog_insights_per_user_30d__c" s.insights_per_user_30d
  ++ optRat "posthog_dashboards_per_user_30d__c" s.dashboards_per_user_30d
  ++ optRat "posthog_active_users_7d_momentum__c" s.active_users_7d_momentum
  ++ optRat "posthog_sessions_7d_momentum__c" s.sessions_7d_momentum
  ++ optRat "posthog_eps_7d_momentum__c" s.events_per_session_7d_momentum
  ++ optRat "posthog_active_users_30d_momentum__c" s.active_users_30d_momentum
  ++ optRat "posthog_sessions_30d_momentum__c" s.sessions_30d_momentum
  ++ optRat "posthog_eps_30d_momentum__c" s.events_per_session_30d_momentum
  ++ [("posthog_products_7d__c", .str (joinSortedComma s.products_activated_7d)),
      ("posthog_products_30d__c", .str (joinSortedComma s.products_activated_30d))]
  ++ optInt "posthog_last_login_days__c" s.days_since_last_login

/-- One per-record result of the CRM bulk call. -/
structure BulkRecordResult where
  id : String
  success : Bool
deriving DecidableEq, Repr

/-- Modelled from the spec: `update_salesforce_usage_activity` (in the
absent workflow module).  The CRM bulk call either raises (modelled as
`Except.error`, caught and treated as zero successes — not re-raised) or
returns per-record results, of which only those marked successful are
counted. -/
def update_salesforce_usage_activity (updates : List (String × UsageSignals))
    (bulk : Except String (List BulkRecordResult)) : Nat :=
  if updates = [] then 0
  else
    match bulk with
    | .error _ => 0
    | .ok results => (results.filter (·.success)).length

/-! ### Toolbar OAuth state exchange (spec-modelled)

The toolbar service module `posthog/api/oauth/toolbar_service.py` is not
part of the reviewed sources (only its tests are), so the exchange step of
the handshake is modelled from the spec. -/

/-- Modelled from the spec: the decoded signed OAuth state — requesting
user id, team id, PKCE challenge and a single-use marker (`nonce`
identifies the minted state value for the consumed-set). -/
structure ToolbarOAuthState where
  user_id : Nat
  team_id : Nat
  code_challenge : String
  nonce : Nat
deriving DecidableEq, Repr

/-- One exchange attempt: the presented state plus the current session. -/
structure ExchangeRequest where
  state : ToolbarOAuthState
  session_user : Nat
  session_team : Nat
deriving DecidableEq, Repr

/-- Outcome of one exchange attempt. -/
inductive ExchangeOutcome where
  | token
  | failure (code : String)
deriving DecidableEq, Repr

/-- Modelled from the spec: the exchange endpoint.  Validates the embedded
user/team against the session (distinct error codes), rejects
already-consumed states with `state_replay`, and only on first valid use
performs the server-to-server token exchange and marks the state consumed.
Returns (outcome, new consumed-set, number of token exchanges performed). -/
def toolbar_exchange (consumed : List Nat) (r : ExchangeRequest) :
    ExchangeOutcome × List Nat × Nat :=
  if r.state.user_id ≠ r.session_user then (.failure "state_user_mismatch", consumed, 0)
  else if r.state.team_id ≠ r.session_team then (.failure "state_team_mismatch", consumed, 0)
  else if r.state.nonce ∈ consumed then (.failure "state_replay", consumed, 0)
  else (.token, r.state.nonce :: consumed, 1)

/-- A sequence of exchange attempts against the shared consumed-set. -/
def runExchanges (consumed : List Nat) : List ExchangeRequest →
    List (ExchangeOutcome × Nat) × List Nat
  | [] => ([], consumed)
  | r :: rs =>
    let step := toolbar_exchange consumed r
    let rest := runExchanges step.2.1 rs
    ((step.1, step.2.2) :: rest.1, rest.2)

/-- Number of successful exchanges of the state with single-use marker `n`
in a run. -/
def okCountFor (n : Nat) (consumed : List Nat) (rs : List ExchangeRequest) : Nat :=
  ((rs.zip (runExchanges consumed rs).1).filter
    (fun p => decide (p.1.state.nonce = n) && decide (p.2.1 = .token))).length

/-! ### Helper lemmas -/

theorem mem_firstDedupAux {α : Type} [DecidableEq α] {a : α} :
    ∀ {l seen : List α}, a ∈ firstDedupAux l seen ↔ a ∈ l ∧ a ∉ seen := by
  intro l
  induction l with
  | nil => intro seen; simp [firstDedupAux]
  | cons b l ih =>
    intro seen
    by_cases hab : a = b
    · subst hab
      by_cases hb : a ∈ seen
      · simp [firstDedupAux, if_pos hb, ih, hb]
      · simp [firstDedupAux, if_neg hb, hb]
    · by_cases hb : b ∈ seen
      · simp only [firstDedupAux, if_pos hb, ih, List.mem_cons]
        tauto
      · simp only [firstDedupAux, if_neg hb, List.mem_cons, ih]
        tauto

theorem mem_firstDedup {α : Type} [DecidableEq α] {a : α} {l : List α} :
    a ∈ firstDedup l ↔ a ∈ l := by
  simp [firstDedup, mem_firstDedupAux]

theorem nodup_firstDedupAux {α : Type} [DecidableEq α] :
    ∀ {l seen : List α}, (firstDedupAux l seen).Nodup := by
  intro l
  induction l with
  | nil => intro seen; simp [firstDedupAux]
  | cons b l ih =>
    intro seen
    by_cases hb : b ∈ seen
    · simpa [firstDedupAux, if_pos hb] using ih
    · simp only [firstDedupAux, if_neg hb, List.nodup_cons]
      refine ⟨fun hmem => ?_, ih⟩
      exact (mem_firstDedupAux.mp hmem).2 (List.mem_cons_self _ _)

theorem nodup_firstDedup {α : Type} [DecidableEq α] {l : List α} :
    (firstDedup l).Nodup :=
  nodup_firstDedupAux

@[simp] theorem findVal_nil {κ ν : Type} [DecidableEq κ] (k : κ) :
    findVal ([] : List (κ × ν)) k = none := rfl

theorem findVal_cons {κ ν : Type} [DecidableEq κ] (a : κ) (b : ν) (l : List (κ × ν)) (k : κ) :
    findVal ((a, b) :: l) k = if a = k then some b else findVal l k := by
  by_cases h : a = k <;> simp [findVal, List.find?, h]

theorem findVal_append {κ ν : Type} [DecidableEq κ] (l₁ l₂ : List (κ × ν)) (k : κ) :
    findVal (l₁ ++ l₂) k = (findVal l₁ k).or (findVal l₂ k) := by
  induction l₁ with
  | nil => simp
  | cons p l ih =>
    obtain ⟨a, b⟩ := p
    by_cases h : a = k <;> simp [findVal_cons, h, ih]

theorem findVal_map_self {κ ν : Type} [DecidableEq κ] (g : κ → ν) :
    ∀ (keys : List κ) (k : κ), k ∈ keys →
      findVal (keys.map (fun x => (x, g x))) k = some (g k) := by
  intro keys
  induction keys with
  | nil => simp
  | cons a l ih =>
    intro k hk
    by_cases h : a = k
    · subst h; simp [findVal_cons]
    · rcases List.mem_cons.mp hk with rfl | hk
      · exact absurd rfl h
      · simp [findVal_cons, h, ih k hk]

theorem findVal_map_eq_none {κ ν : Type} [DecidableEq κ] (g : κ → ν) :
    ∀ (keys : List κ) (k : κ), k ∉ keys →
      findVal (keys.map (fun x => (x, g x))) k = none := by
  intro keys
  induction keys with
  | nil => simp
  | cons a l ih =>
    intro k hk
    have ha : a ≠ k := fun h => hk (h ▸ List.mem_cons_self _ _)
    simp [findVal_cons, ha, ih k (fun h => hk (List.mem_cons_of_mem _ h))]

theorem findVal_map_some {κ ν : Type} [DecidableEq κ] (g : κ → ν)
    (keys : List κ) (k : κ) (v : ν)
    (h : findVal (keys.map (fun x => (x, g x))) k = some v) : v = g k := by
  by_cases hk : k ∈ keys
  · rw [findVal_map_self g keys k hk] at h
    exact (Option.some_injective _ h).symm
  · rw [findVal_map_eq_none g keys k hk] at h
    exact absurd h (by simp)

/-- Membership in the product list produced from a flag table with
pairwise-distinct output names. -/
theorem mem_table_filterMap {β : Type} (ts : List β) :
    ∀ (pf : List ((β → Bool) × String)) (f : β → Bool) (nm : String),
      (f, nm) ∈ pf → (pf.map (·.2)).Nodup →
      (nm ∈ pf.filterMap (fun p => if ts.any p.1 = true then some p.2 else none)
        ↔ ts.any f = true) := by
  have hstep : ∀ (q : (β → Bool) × String) (pf : List ((β → Bool) × String)),
      (q :: pf).filterMap (fun p => if ts.any p.1 = true then some p.2 else none) =
        if ts.any q.1 = true
        then q.2 :: pf.filterMap (fun p => if ts.any p.1 = true then some p.2 else none)
        else pf.filterMap (fun p => if ts.any p.1 = true then some p.2 else none) := by
    intro q pf
    by_cases h : ts.any q.1 = true
    · rw [List.filterMap_cons, if_pos h, if_pos h]
    · rw [List.filterMap_cons, if_neg h, if_neg h]
  intro pf
  induction pf with
  | nil => intro f nm h _; simp at h
  | cons q pf ih =>
    intro f nm hmem hnodup
    have hnd2 : (pf.map (·.2)).Nodup := (List.nodup_cons.mp hnodup).2
    have hq : q.2 ∉ pf.map (·.2) := (List.nodup_cons.mp hnodup).1
    rcases List.mem_cons.mp hmem with heq | hmem2
    · obtain rfl := heq.symm
      rw [hstep]
      by_cases hany : ts.any f = true
      · rw [if_pos hany]
        simp [hany]
      · rw [if_neg hany]
        constructor
        · intro h
          exfalso
          obtain ⟨p, hp, hps⟩ := List.mem_filterMap.mp h
          by_cases h2 : ts.any p.1 = true
          · rw [if_pos h2] at hps
            exact hq (List.mem_map.mpr ⟨p, hp, Option.some_inj.mp hps⟩)
          · rw [if_neg h2] at hps
            exact Option.noConfusion hps
        · intro h
          exact absurd h hany
    · have hnm : nm ∈ pf.map (·.2) := List.mem_map.mpr ⟨(f, nm), hmem2, rfl⟩
      have hqnm : ¬ nm = q.2 := fun h => hq (h ▸ hnm)
      rw [hstep]
      by_cases hany : ts.any q.1 = true
      · rw [if_pos hany, List.mem_cons]
        simp only [hqnm, false_or]
        exact ih f nm hmem2 hnd2
      · rw [if_neg hany]
        exact ih f nm hmem2 hnd2

/-! ### C1: calc_momentum -/

/-- C1: for every pair (current, previous), `calc_momentum` returns null iff
`previous == 0`, and otherwise returns exactly
`((current - previous) / previous) * 100`; in particular
`calc_momentum 0 0` is null (and nullness depends only on `previous`). -/
theorem calc_momentum_spec (current previous : ℚ) :
    (calc_momentum current previous = none ↔ previous = 0)
    ∧ (previous ≠ 0 →
        calc_momentum current previous = some (((current - previous) / previous) * 100))
    ∧ calc_momentum 0 0 = none := by
  refine ⟨?_, ?_, by simp [calc_momentum]⟩
  · by_cases h : previous = 0 <;> simp [calc_momentum, h]
  · intro h
    simp [calc_momentum, h]

/-- Witness for C1 at the spec's own examples. -/
theorem calc_momentum_spec_witness :
    calc_momentum 150 100 = some 50 ∧ calc_momentum 100 0 = none := by
  constructor
  · have h := (calc_momentum_spec 150 100).2.1 (by norm_num)
    rw [h]
    norm_num
  · exact (calc_momentum_spec 100 0).1.mpr rfl

/-! ### C3: aggregate_teams_to_org -/

/-- C3: `aggregate_teams_to_org` sums `active_persons`, `session_count` and
`total_events` across teams; `events_per_session` is total events / total
sessions when total sessions is positive and null when it is zero; a
product name is in `products_activated` exactly when some team has the
corresponding flag, under the fixed mapping feature_flags / surveys /
error_tracking / ai; and the empty list yields the all-zero record. -/
theorem aggregate_teams_to_org_spec (ts : List TeamUsageSignals) :
    (aggregate_teams_to_org ts).active_users = (ts.map (·.active_persons)).sum
    ∧ (aggregate_teams_to_org ts).sessions = (ts.map (·.session_count)).sum
    ∧ (aggregate_teams_to_org ts).total_events = (ts.map (·.total_events)).sum
    ∧ ((ts.map (·.session_count)).sum = 0 →
        (aggregate_teams_to_org ts).events_per_session = none)
    ∧ (0 < (ts.map (·.session_count)).sum →
        (aggregate_teams_to_org ts).events_per_session =
          some (((ts.map (·.total_events)).sum : ℚ) / ((ts.map (·.session_count)).sum : ℚ)))
    ∧ ("feature_flags" ∈ (aggregate_teams_to_org ts).products_activated
        ↔ ∃ t ∈ ts, t.has_feature_flags = true)
    ∧ ("surveys" ∈ (aggregate_teams_to_org ts).products_activated
        ↔ ∃ t ∈ ts, t.has_surveys = true)
    ∧ ("error_tracking" ∈ (aggregate_teams_to_org ts).products_activated
        ↔ ∃ t ∈ ts, t.has_error_tracking = true)
    ∧ ("ai" ∈ (aggregate_teams_to_org ts).products_activated
        ↔ ∃ t ∈ ts, t.has_ai = true)
    ∧ aggregate_teams_to_org [] = OrgAggregatedSignals.empty := by
  by_cases hts : ts = []
  · subst hts
    simp [aggregate_teams_to_org, OrgAggregatedSignals.empty]
  · have hprod : (aggregate_teams_to_org ts).products_activated =
        PRODUCT_FLAGS.filterMap (fun p => if ts.any p.1 = true then some p.2 else none) := by
      simp [aggregate_teams_to_org, hts]
    have hnodup : (PRODUCT_FLAGS.map (·.2)).Nodup := by
      simp [PRODUCT_FLAGS]
    have hmem : ∀ (f : TeamUsageSignals → Bool) (nm : String), (f, nm) ∈ PRODUCT_FLAGS →
        ("" = "" → (nm ∈ (aggregate_teams_to_org ts).products_activated
          ↔ ∃ t ∈ ts, f t = true)) := by
      intro f nm hf _
      rw [hprod, mem_table_filterMap ts PRODUCT_FLAGS f nm hf hnodup, List.any_eq_true]
    refine ⟨by simp [aggregate_teams_to_org, hts], by simp [aggregate_teams_to_org, hts],
      by simp [aggregate_teams_to_org, hts], ?_, ?_, ?_, ?_, ?_, ?_,
      by simp [aggregate_teams_to_org, OrgAggregatedSignals.empty]⟩
    · intro h
      simp [aggregate_teams_to_org, hts, h]
    · intro h
      simp [aggregate_teams_to_org, hts, h, Function.comp_def]
    · exact hmem _ _ (by simp [PRODUCT_FLAGS]) rfl
    · exact hmem _ _ (by simp [PRODUCT_FLAGS]) rfl
    · exact hmem _ _ (by simp [PRODUCT_FLAGS]) rfl
    · exact hmem _ _ (by simp [PRODUCT_FLAGS]) rfl

/-- Witness for C3 at the spec's 2-team example (sessions 50+50, events
500+500 give 10 events per session, flags are ORed). -/
theorem aggregate_teams_to_org_spec_witness :
    (aggregate_teams_to_org
      [⟨1, 100, 90, 50, 500, false, true, false, false⟩,
       ⟨2, 100, 90, 50, 500, false, false, false, true⟩]).events_per_session = some 10
    ∧ ("surveys" ∈ (aggregate_teams_to_org
      [⟨1, 100, 90, 50, 500, false, true, false, false⟩,
       ⟨2, 100, 90, 50, 500, false, false, false, true⟩]).products_activated
      ↔ ∃ t ∈ [(⟨1, 100, 90, 50, 500, false, true, false, false⟩ : TeamUsageSignals),
               ⟨2, 100, 90, 50, 500, false, false, false, true⟩], t.has_surveys = true) := by
  constructor
  · have h := (aggregate_teams_to_org_spec
      [⟨1, 100, 90, 50, 500, false, true, false, false⟩,
       ⟨2, 100, 90, 50, 500, false, false, false, true⟩]).2.2.2.2.1 (by norm_num)
    rw [h]
    norm_num
  · exact (aggregate_teams_to_org_spec
      [⟨1, 100, 90, 50, 500, false, true, false, false⟩,
       ⟨2, 100, 90, 50, 500, false, false, false, true⟩]).2.2.2.2.2.2.1

/-! ### C9: product lists are duplicate-free with a fixed order -/

/-- The conditional-emit `filterMap` over a table is a sublist of the
table's output column. -/
theorem filterMap_if_sublist {g d : Type} (P : g → Prop) [DecidablePred P] (f : g → d) :
    ∀ (l : List g), (l.filterMap (fun p => if P p then some (f p) else none)).Sublist (l.map f) := by
  intro l
  induction l with
  | nil => simp
  | cons a l ih =>
    rw [List.filterMap_cons]
    by_cases h : P a
    · rw [if_pos h]
      exact List.Sublist.cons₂ (f a) ih
    · rw [if_neg h]
      exact List.Sublist.cons (f a) ih

/-- The aggregated product list is a sublist of the fixed name table. -/
theorem products_activated_sublist (ts : List TeamUsageSignals) :
    ((aggregate_teams_to_org ts).products_activated).Sublist
      ["feature_flags", "surveys", "error_tracking", "ai"] := by
  by_cases hts : ts = []
  · simp [hts, aggregate_teams_to_org, OrgAggregatedSignals.empty]
  · have h := filterMap_if_sublist (fun p : (TeamUsageSignals → Bool) × String =>
      ts.any p.1 = true) (·.2) PRODUCT_FLAGS
    simpa [aggregate_teams_to_org, hts, PRODUCT_FLAGS] using h

/-- `_get_products_with_recordings` either returns the list unchanged or
appends a single `"recordings"` at the end. -/
theorem get_products_with_recordings_cases (products : List String) (team_ids : List Nat)
    (recordings : List (Nat × Nat)) :
    get_products_with_recordings products team_ids recordings = products
    ∨ get_products_with_recordings products team_ids recordings = products ++ ["recordings"] := by
  unfold get_products_with_recordings
  by_cases h : (team_ids.any (fun tid => decide (0 < findValD recordings tid 0))
      && !(products.contains "recordings")) = true
  · rw [if_pos h]
    exact Or.inr rfl
  · rw [if_neg h]
    exact Or.inl rfl

/-- Product lists assembled for an organization stay inside the fixed
five-name vocabulary. -/
theorem org_products_sublist (ts : List TeamUsageSignals) (team_ids : List Nat)
    (recordings : List (Nat × Nat)) :
    (get_products_with_recordings (aggregate_teams_to_org ts).products_activated
      team_ids recordings).Sublist
      ["feature_flags", "surveys", "error_tracking", "ai", "recordings"] := by
  have hsub := products_activated_sublist ts
  rcases get_products_with_recordings_cases
      (aggregate_teams_to_org ts).products_activated team_ids recordings with h | h
  · rw [h]
    exact hsub.trans (by decide)
  · rw [h]
    have : (["feature_flags", "surveys", "error_tracking", "ai"] ++ ["recordings"] :
        List String) = ["feature_flags", "surveys", "error_tracking", "ai", "recordings"] := rfl
    rw [← this]
    exact hsub.append (List.Sublist.refl _)

/-- The fixed five-name vocabulary has no duplicates. -/
theorem master_products_nodup :
    (["feature_flags", "surveys", "error_tracking", "ai", "recordings"] : List String).Nodup := by
  decide

/-- Every value in the orchestration output map is either the all-default
record (team-set short-circuit) or a per-organization assembly. -/
theorem orch_output_form (store : Store) (n1 n2 : Int) (orgs : List String) (oid : String)
    (v : UsageSignals)
    (h : findVal (aggregate_usage_signals_for_orgs store n1 n2 orgs).1 oid = some v) :
    v = UsageSignals.empty
    ∨ ∃ (ott : List (String × List Nat)) (p7 p30 : PeriodData)
        (lr : List (String × Option Int)),
        v = build_org_signals ott p7 p30 lr oid := by
  unfold aggregate_usage_signals_for_orgs at h
  by_cases horgs : orgs = []
  · rw [if_pos horgs] at h
    simp [findVal] at h
  · rw [if_neg horgs] at h
    by_cases hteam : allTeamIds store orgs = []
    · rw [if_pos hteam] at h
      exact Or.inl (findVal_map_some (fun _ => UsageSignals.empty) (firstDedup orgs) oid v h)
    · rw [if_neg hteam] at h
      exact Or.inr ⟨(get_team_ids_for_orgs store.teams orgs).1,
        (fetch_period_data store (allTeamIds store orgs) orgs
          (n1 - 7 * 86400) n1 ((n1 - 7 * 86400) - 7 * 86400)).1,
        (fetch_period_data store (allTeamIds store orgs) orgs
          (n1 - 30 * 86400) n1 ((n1 - 30 * 86400) - 30 * 86400)).1,
        (get_org_login_recency store.memberships n2 orgs).1,
        findVal_map_some
          (fun x => build_org_signals (get_team_ids_for_orgs store.teams orgs).1
            (fetch_period_data store (allTeamIds store orgs) orgs
              (n1 - 7 * 86400) n1 ((n1 - 7 * 86400) - 7 * 86400)).1
            (fetch_period_data store (allTeamIds store orgs) orgs
              (n1 - 30 * 86400) n1 ((n1 - 30 * 86400) - 30 * 86400)).1
            (get_org_login_recency store.memberships n2 orgs).1 x)
          (firstDedup orgs) oid v h⟩

/-- C9: the aggregated product list is a sublist of the fixed 4-name table
(hence duplicate-free, in the fixed order feature_flags, surveys,
error_tracking, ai); `_get_products_with_recordings` returns the list
unchanged or with a single `"recordings"` appended at the end, the latter
exactly when some team has a positive recording count; and every product
list in the orchestration output is a duplicate-free sublist of the fixed
5-name vocabulary. -/
theorem products_list_nodup_ordered :
    (∀ ts : List TeamUsageSignals,
        ((aggregate_teams_to_org ts).products_activated).Sublist
          ["feature_flags", "surveys", "error_tracking", "ai"]
        ∧ ((aggregate_teams_to_org ts).products_activated).Nodup)
    ∧ (∀ (products : List String) (team_ids : List Nat) (recordings : List (Nat × Nat)),
        get_products_with_recordings products team_ids recordings = products
        ∨ get_products_with_recordings products team_ids recordings = products ++ ["recordings"])
    ∧ (∀ (ts : List TeamUsageSignals) (team_ids : List Nat) (recordings : List (Nat × Nat)),
        ("recordings" ∈ get_products_with_recordings
            (aggregate_teams_to_org ts).products_activated team_ids recordings
          ↔ team_ids.any (fun tid => decide (0 < findValD recordings tid 0)) = true))
    ∧ (∀ (store : Store) (n1 n2 : Int) (orgs : List String) (oid : String) (v : UsageSignals),
        findVal (aggregate_usage_signals_for_orgs store n1 n2 orgs).1 oid = some v →
        (v.products_activated_7d.Sublist
            ["feature_flags", "surveys", "error_tracking", "ai", "recordings"]
         ∧ v.products_activated_7d.Nodup
         ∧ v.products_activated_30d.Sublist
            ["feature_flags", "surveys", "error_tracking", "ai", "recordings"]
         ∧ v.products_activated_30d.Nodup)) := by
  refine ⟨?_, ?_, ?_, ?_⟩
  · intro ts
    refine ⟨products_activated_sublist ts, List.Nodup.sublist (products_activated_sublist ts) ?_⟩
    decide
  · exact get_products_with_recordings_cases
  · intro ts team_ids recordings
    have hnr : "recordings" ∉ (aggregate_teams_to_org ts).products_activated := by
      intro hm
      have := (products_activated_sublist ts).subset hm
      simp at this
    by_cases hany : team_ids.any (fun tid => decide (0 < findValD recordings tid 0)) = true
    · have hcond : (team_ids.any (fun tid => decide (0 < findValD recordings tid 0))
          && !((aggregate_teams_to_org ts).products_activated.contains "recordings")) = true := by
        simp [hany, hnr]
      unfold get_products_with_recordings
      rw [if_pos hcond]
      simp [hany]
    · have hcond : ¬ (team_ids.any (fun tid => decide (0 < findValD recordings tid 0))
          && !((aggregate_teams_to_org ts).products_activated.contains "recordings")) = true := by
        simp [hany]
      unfold get_products_with_recordings
      rw [if_neg hcond]
      simp [hany, hnr]
  · intro store n1 n2 orgs oid v h
    rcases orch_output_form store n1 n2 orgs oid v h with rfl | ⟨ott, p7, p30, lr, rfl⟩
    · simp [UsageSignals.empty]
    · have h7 : (build_org_signals ott p7 p30 lr oid).products_activated_7d =
          get_products_with_recordings
            (aggregate_teams_to_org
              ((findValD ott oid []).filterMap (sigLookup p7.signals_by_team))).products_activated
            (findValD ott oid []) p7.recordings := rfl
      have h30 : (build_org_signals ott p7 p30 lr oid).products_activated_30d =
          get_products_with_recordings
            (aggregate_teams_to_org
              ((findValD ott oid []).filterMap (sigLookup p30.signals_by_team))).products_activated
            (findValD ott oid []) p30.recordings := rfl
      rw [h7, h30]
      exact ⟨org_products_sublist _ _ _,
        List.Nodup.sublist (org_products_sublist _ _ _) master_products_nodup,
        org_products_sublist _ _ _,
        List.Nodup.sublist (org_products_sublist _ _ _) master_products_nodup⟩

/-- Witness for C9 on a concrete orchestration output (one organization
with no teams: the short-circuit record). -/
theorem products_list_nodup_ordered_witness :
    findVal (aggregate_usage_signals_for_orgs ⟨[], [], [], [], [], []⟩ 0 0 ["a"]).1 "a" =
      some UsageSignals.empty
    ∧ UsageSignals.empty.products_activated_7d.Nodup := by
  have h : findVal (aggregate_usage_signals_for_orgs ⟨[], [], [], [], [], []⟩ 0 0 ["a"]).1 "a" =
      some UsageSignals.empty := by decide
  exact ⟨h, (products_list_nodup_ordered.2.2.2 ⟨[], [], [], [], [], []⟩ 0 0 ["a"] "a"
    UsageSignals.empty h).2.1⟩

/-! ### C10: independence from active_distinct_ids -/

/-- Erase the `active_distinct_ids` counter of a team record. -/
def scrubTeam (t : TeamUsageSignals) : TeamUsageSignals :=
  { t with active_distinct_ids := 0 }

/-- Erase the `distinct_id` column of an event row. -/
def scrubEvent (r : EventRow) : EventRow :=
  { r with distinct_id := "" }

/-- Erase the `distinct_id` column of the whole store. -/
def scrubStore (s : Store) : Store :=
  { s with events := s.events.map scrubEvent }

theorem map_scrubTeam_eq {γ : Type} {ts1 ts2 : List TeamUsageSignals}
    (hmap : ts1.map scrubTeam = ts2.map scrubTeam)
    (g : TeamUsageSignals → γ) (hg : ∀ t, g (scrubTeam t) = g t) :
    ts1.map g = ts2.map g := by
  have hfe : g ∘ scrubTeam = g := funext hg
  calc ts1.map g = ts1.map (g ∘ scrubTeam) := by rw [hfe]
    _ = (ts1.map scrubTeam).map g := (List.map_map g scrubTeam ts1).symm
    _ = (ts2.map scrubTeam).map g := by rw [hmap]
    _ = ts2.map (g ∘ scrubTeam) := List.map_map g scrubTeam ts2
    _ = ts2.map g := by rw [hfe]

theorem any_scrubTeam_eq {ts1 ts2 : List TeamUsageSignals}
    (hmap : ts1.map scrubTeam = ts2.map scrubTeam)
    (f : TeamUsageSignals → Bool) (hf : ∀ t, f (scrubTeam t) = f t) :
    ts1.any f = ts2.any f := by
  have h := map_scrubTeam_eq hmap f hf
  have hiff : ts1.any f = true ↔ ts2.any f = true := by
    rw [List.any_eq_true, List.any_eq_true]
    constructor
    · rintro ⟨x, hx, hfx⟩
      have hmem : f x ∈ ts2.map f := by rw [← h]; exact List.mem_map_of_mem f hx
      obtain ⟨y, hy, hfy⟩ := List.mem_map.mp hmem
      exact ⟨y, hy, by rw [hfy, hfx]⟩
    · rintro ⟨x, hx, hfx⟩
      have hmem : f x ∈ ts1.map f := by rw [h]; exact List.mem_map_of_mem f hx
      obtain ⟨y, hy, hfy⟩ := List.mem_map.mp hmem
      exact ⟨y, hy, by rw [hfy, hfx]⟩
  cases hb1 : ts1.any f <;> cases hb2 : ts2.any f <;> simp_all

/-- `aggregate_teams_to_org` only reads fields untouched by `scrubTeam`. -/
theorem aggregate_teams_to_org_scrub {ts1 ts2 : List TeamUsageSignals}
    (hmap : ts1.map scrubTeam = ts2.map scrubTeam) :
    aggregate_teams_to_org ts1 = aggregate_teams_to_org ts2 := by
  have hemp : ts1 = [] ↔ ts2 = [] := by
    constructor
    · intro h
      subst h
      exact (List.map_eq_nil_iff.mp hmap.symm)
    · intro h
      subst h
      exact (List.map_eq_nil_iff.mp hmap)
  by_cases h1 : ts1 = []
  · have h2 : ts2 = [] := hemp.mp h1
    rw [h1, h2]
  · have h2 : ts2 ≠ [] := fun h => h1 (hemp.mpr h)
    have hap : ts1.map (·.active_persons) = ts2.map (·.active_persons) :=
      map_scrubTeam_eq hmap _ (fun t => rfl)
    have hsc : ts1.map (·.session_count) = ts2.map (·.session_count) :=
      map_scrubTeam_eq hmap _ (fun t => rfl)
    have hte : ts1.map (·.total_events) = ts2.map (·.total_events) :=
      map_scrubTeam_eq hmap _ (fun t => rfl)
    have hff : ts1.any TeamUsageSignals.has_feature_flags =
        ts2.any TeamUsageSignals.has_feature_flags := any_scrubTeam_eq hmap _ (fun t => rfl)
    have hsv : ts1.any TeamUsageSignals.has_surveys =
        ts2.any TeamUsageSignals.has_surveys := any_scrubTeam_eq hmap _ (fun t => rfl)
    have het : ts1.any TeamUsageSignals.has_error_tracking =
        ts2.any TeamUsageSignals.has_error_tracking := any_scrubTeam_eq hmap _ (fun t => rfl)
    have hai : ts1.any TeamUsageSignals.has_ai =
        ts2.any TeamUsageSignals.has_ai := any_scrubTeam_eq hmap _ (fun t => rfl)
    simp only [aggregate_teams_to_org, h1, h2, if_neg, PRODUCT_FLAGS,
      List.filterMap_cons, List.filterMap_nil, hap, hsc, hte, hff, hsv, het, hai]

/-- Dict lookup by team id is insensitive to scrubbing. -/
theorem sigLookup_scrub {l1 l2 : List TeamUsageSignals}
    (h : l1.map scrubTeam = l2.map scrubTeam) (tid : Nat) :
    (sigLookup l1 tid).map scrubTeam = (sigLookup l2 tid).map scrubTeam := by
  have key : ∀ (l : List TeamUsageSignals),
      (l.map scrubTeam).find? (fun s => decide (s.team_id = tid)) =
        (sigLookup l tid).map scrubTeam := by
    intro l
    rw [List.find?_map]
    rfl
  rw [← key l1, ← key l2, h]

/-- Per-organization team-signal lists are scrub-equal when the shared
fetch results are. -/
theorem filterMap_sigLookup_scrub {l1 l2 : List TeamUsageSignals}
    (h : l1.map scrubTeam = l2.map scrubTeam) (tids : List Nat) :
    (tids.filterMap (sigLookup l1)).map scrubTeam =
      (tids.filterMap (sigLookup l2)).map scrubTeam := by
  induction tids with
  | nil => rfl
  | cons tid tids ih =>
    have hl := sigLookup_scrub h tid
    rw [List.filterMap_cons, List.filterMap_cons]
    cases h1 : sigLookup l1 tid with
    | none =>
      cases h2 : sigLookup l2 tid with
      | none => exact ih
      | some b =>
        rw [h1, h2] at hl
        exact absurd hl (by simp)
    | some a =>
      cases h2 : sigLookup l2 tid with
      | none =>
        rw [h1, h2] at hl
        exact absurd hl (by simp)
      | some b =>
        rw [h1, h2] at hl
        have hab : scrubTeam a = scrubTeam b := by simpa using hl
        simp only [List.map_cons, ih, hab]

/-- Scrubbing the event rows of a team group only changes its
`active_distinct_ids` aggregate. -/
theorem teamSignalsOfRows_scrub (t : Nat) (trows : List EventRow) :
    scrubTeam (teamSignalsOfRows t (trows.map scrubEvent)) =
      scrubTeam (teamSignalsOfRows t trows) := by
  unfold teamSignalsOfRows scrubTeam scrubEvent
  simp [List.map_map, List.any_map, Function.comp_def]

/-- The wide aggregation fetch commutes with scrubbing, up to
`active_distinct_ids`. -/
theorem signals_fetch_scrub (ev : List EventRow) (b e : Int) (tids : List Nat) :
    ((get_teams_with_usage_signals_in_period (ev.map scrubEvent) b e tids).1).map scrubTeam =
      ((get_teams_with_usage_signals_in_period ev b e tids).1).map scrubTeam := by
  by_cases htids : tids = []
  · simp [get_teams_with_usage_signals_in_period, htids]
  · unfold get_teams_with_usage_signals_in_period
    rw [if_neg htids, if_neg htids]
    have hpe : (fun r : EventRow => decide (r.team_id ∈ tids)
        && decide (b ≤ r.timestamp) && decide (r.timestamp < e)) ∘ scrubEvent =
        (fun r : EventRow => decide (r.team_id ∈ tids)
          && decide (b ≤ r.timestamp) && decide (r.timestamp < e)) := rfl
    have hrows : (ev.map scrubEvent).filter
        (fun r => decide (r.team_id ∈ tids) && decide (b ≤ r.timestamp)
          && decide (r.timestamp < e)) =
        (ev.filter (fun r => decide (r.team_id ∈ tids) && decide (b ≤ r.timestamp)
          && decide (r.timestamp < e))).map scrubEvent := by
      rw [List.filter_map, hpe]
    rw [hrows]
    generalize (ev.filter (fun r => decide (r.team_id ∈ tids) && decide (b ≤ r.timestamp)
      && decide (r.timestamp < e))) = rows
    have hkeys : ((rows.map scrubEvent).map (·.team_id)) = rows.map (·.team_id) := by
      rw [List.map_map]
      rfl
    have htr : ∀ t : Nat, (rows.map scrubEvent).filter (fun r => decide (r.team_id = t)) =
        (rows.filter (fun r => decide (r.team_id = t))).map scrubEvent := by
      intro t
      rw [List.filter_map]
      rfl
    simp only [hkeys, List.map_map]
    apply List.map_congr_left
    intro t _
    simp only [Function.comp_def, htr t]
    exact teamSignalsOfRows_scrub t _

/-- The recorded query log of the wide fetch does not depend on the event
rows. -/
theorem signals_fetch_log (ev1 ev2 : List EventRow) (b e : Int) (tids : List Nat) :
    (get_teams_with_usage_signals_in_period ev1 b e tids).2 =
      (get_teams_with_usage_signals_in_period ev2 b e tids).2 := by
  by_cases htids : tids = [] <;>
    simp [get_teams_with_usage_signals_in_period, htids]

/-- Per-organization assembly only depends on the scrub-image of the
signal lists (and on the untouched tables). -/
theorem build_org_signals_scrub (ott : List (String × List Nat)) (p7 p7q p30 p30q : PeriodData)
    (lr : List (String × Option Int)) (oid : String)
    (h7s : p7.signals_by_team.map scrubTeam = p7q.signals_by_team.map scrubTeam)
    (h7p : p7.prev_signals_by_team.map scrubTeam = p7q.prev_signals_by_team.map scrubTeam)
    (h30s : p30.signals_by_team.map scrubTeam = p30q.signals_by_team.map scrubTeam)
    (h30p : p30.prev_signals_by_team.map scrubTeam = p30q.prev_signals_by_team.map scrubTeam)
    (h7r : p7.recordings = p7q.recordings) (h7d : p7.dashboards = p7q.dashboards)
    (h7i : p7.insights = p7q.insights)
    (h30r : p30.recordings = p30q.recordings) (h30d : p30.dashboards = p30q.dashboards)
    (h30i : p30.insights = p30q.insights) :
    build_org_signals ott p7 p30 lr oid = build_org_signals ott p7q p30q lr oid := by
  have e7 := aggregate_teams_to_org_scrub (filterMap_sigLookup_scrub h7s (findValD ott oid []))
  have e7p := aggregate_teams_to_org_scrub (filterMap_sigLookup_scrub h7p (findValD ott oid []))
  have e30 := aggregate_teams_to_org_scrub (filterMap_sigLookup_scrub h30s (findValD ott oid []))
  have e30p := aggregate_teams_to_org_scrub (filterMap_sigLookup_scrub h30p (findValD ott oid []))
  simp only [build_org_signals, e7, e7p, e30, e30p, h7r, h7d, h7i, h30r, h30d, h30i]

/-- `fetch_period_data` on a scrubbed store: scrub-equal signal lists,
identical everything else. -/
theorem fetch_period_data_scrub (store : Store) (tids : List Nat) (orgs : List String)
    (a b c : Int) :
    ((fetch_period_data (scrubStore store) tids orgs a b c).1.signals_by_team.map scrubTeam =
        (fetch_period_data store tids orgs a b c).1.signals_by_team.map scrubTeam)
    ∧ ((fetch_period_data (scrubStore store) tids orgs a b c).1.prev_signals_by_team.map
          scrubTeam =
        (fetch_period_data store tids orgs a b c).1.prev_signals_by_team.map scrubTeam)
    ∧ (fetch_period_data (scrubStore store) tids orgs a b c).1.recordings =
        (fetch_period_data store tids orgs a b c).1.recordings
    ∧ (fetch_period_data (scrubStore store) tids orgs a b c).1.dashboards =
        (fetch_period_data store tids orgs a b c).1.dashboards
    ∧ (fetch_period_data (scrubStore store) tids orgs a b c).1.insights =
        (fetch_period_data store tids orgs a b c).1.insights
    ∧ (fetch_period_data (scrubStore store) tids orgs a b c).2 =
        (fetch_period_data store tids orgs a b c).2 := by
  refine ⟨signals_fetch_scrub store.events a b tids, signals_fetch_scrub store.events c a tids,
    rfl, rfl, rfl, ?_⟩
  unfold fetch_period_data
  simp only []
  rw [show (scrubStore store).events = store.events.map scrubEvent from rfl,
    show (scrubStore store).replays = store.replays from rfl,
    show (scrubStore store).dashboards = store.dashboards from rfl,
    show (scrubStore store).insights = store.insights from rfl,
    signals_fetch_log (store.events.map scrubEvent) store.events a b tids,
    signals_fetch_log (store.events.map scrubEvent) store.events c a tids]

/-- The orchestration is insensitive to scrubbing the `distinct_id`
column of the event store. -/
theorem orch_scrub (store : Store) (n1 n2 : Int) (orgs : List String) :
    aggregate_usage_signals_for_orgs (scrubStore store) n1 n2 orgs =
      aggregate_usage_signals_for_orgs store n1 n2 orgs := by
  have hATI : allTeamIds (scrubStore store) orgs = allTeamIds store orgs := rfl
  unfold aggregate_usage_signals_for_orgs
  by_cases horgs : orgs = []
  · rw [if_pos horgs, if_pos horgs]
  · rw [if_neg horgs, if_neg horgs, hATI]
    by_cases hteam : allTeamIds store orgs = []
    · rw [if_pos hteam, if_pos hteam,
        show (scrubStore store).teams = store.teams from rfl]
    · rw [if_neg hteam, if_neg hteam]
      have h7 := fetch_period_data_scrub store (allTeamIds store orgs) orgs
        (n1 - 7 * 86400) n1 ((n1 - 7 * 86400) - 7 * 86400)
      have h30 := fetch_period_data_scrub store (allTeamIds store orgs) orgs
        (n1 - 30 * 86400) n1 ((n1 - 30 * 86400) - 30 * 86400)
      have hbuild : ∀ oid : String,
          build_org_signals (get_team_ids_for_orgs (scrubStore store).teams orgs).1
            (fetch_period_data (scrubStore store) (allTeamIds store orgs) orgs
              (n1 - 7 * 86400) n1 ((n1 - 7 * 86400) - 7 * 86400)).1
            (fetch_period_data (scrubStore store) (allTeamIds store orgs) orgs
              (n1 - 30 * 86400) n1 ((n1 - 30 * 86400) - 30 * 86400)).1
            (get_org_login_recency (scrubStore store).memberships n2 orgs).1 oid =
          build_org_signals (get_team_ids_for_orgs store.teams orgs).1
            (fetch_period_data store (allTeamIds store orgs) orgs
              (n1 - 7 * 86400) n1 ((n1 - 7 * 86400) - 7 * 86400)).1
            (fetch_period_data store (allTeamIds store orgs) orgs
              (n1 - 30 * 86400) n1 ((n1 - 30 * 86400) - 30 * 86400)).1
            (get_org_login_recency store.memberships n2 orgs).1 oid := by
        intro oid
        exact build_org_signals_scrub _ _ _ _ _ _ oid
          h7.1 h7.2.1 h30.1 h30.2.1 h7.2.2.1 h7.2.2.2.1 h7.2.2.2.2.1
          h30.2.2.1 h30.2.2.2.1 h30.2.2.2.2.1
      have hmap : ((firstDedup orgs).map (fun oid =>
          (oid, build_org_signals (get_team_ids_for_orgs (scrubStore store).teams orgs).1
            (fetch_period_data (scrubStore store) (allTeamIds store orgs) orgs
              (n1 - 7 * 86400) n1 ((n1 - 7 * 86400) - 7 * 86400)).1
            (fetch_period_data (scrubStore store) (allTeamIds store orgs) orgs
              (n1 - 30 * 86400) n1 ((n1 - 30 * 86400) - 30 * 86400)).1
            (get_org_login_recency (scrubStore store).memberships n2 orgs).1 oid))) =
          ((firstDedup orgs).map (fun oid =>
          (oid, build_org_signals (get_team_ids_for_orgs store.teams orgs).1
            (fetch_period_data store (allTeamIds store orgs) orgs
              (n1 - 7 * 86400) n1 ((n1 - 7 * 86400) - 7 * 86400)).1
            (fetch_period_data store (allTeamIds store orgs) orgs
              (n1 - 30 * 86400) n1 ((n1 - 30 * 86400) - 30 * 86400)).1
            (get_org_login_recency store.memberships n2 orgs).1 oid))) := by
        apply List.map_congr_left
        intro oid _
        rw [hbuild oid]
      rw [hmap, h7.2.2.2.2.2, h30.2.2.2.2.2,
        show (scrubStore store).teams = store.teams from rfl,
        show (scrubStore store).memberships = store.memberships from rfl]

/-- C10: the aggregation output is independent of `active_distinct_ids`:
scrub-equal team-signal lists aggregate identically, and stores whose
event rows differ only in the `distinct_id` column produce identical
orchestration outputs (so no `UsageSignals` field depends on it). -/
theorem aggregation_independent_of_distinct_ids :
    (∀ ts1 ts2 : List TeamUsageSignals, ts1.map scrubTeam = ts2.map scrubTeam →
        aggregate_teams_to_org ts1 = aggregate_teams_to_org ts2)
    ∧ (∀ (s1 s2 : Store) (n1 n2 : Int) (orgs : List String),
        scrubStore s1 = scrubStore s2 →
        aggregate_usage_signals_for_orgs s1 n1 n2 orgs =
          aggregate_usage_signals_for_orgs s2 n1 n2 orgs) := by
  refine ⟨fun ts1 ts2 h => aggregate_teams_to_org_scrub h, ?_⟩
  intro s1 s2 n1 n2 orgs h
  calc aggregate_usage_signals_for_orgs s1 n1 n2 orgs
      = aggregate_usage_signals_for_orgs (scrubStore s1) n1 n2 orgs := (orch_scrub s1 n1 n2 orgs).symm
    _ = aggregate_usage_signals_for_orgs (scrubStore s2) n1 n2 orgs := by rw [h]
    _ = aggregate_usage_signals_for_orgs s2 n1 n2 orgs := orch_scrub s2 n1 n2 orgs

/-- Witness for C10: two one-team signal lists differing only in
`active_distinct_ids` (5 vs 7) aggregate identically. -/
theorem aggregation_independent_of_distinct_ids_witness :
    aggregate_teams_to_org [⟨1, 2, 5, 3, 4, true, false, false, false⟩] =
      aggregate_teams_to_org [⟨1, 2, 7, 3, 4, true, false, false, false⟩] :=
  aggregation_independent_of_distinct_ids.1
    [⟨1, 2, 5, 3, 4, true, false, false, false⟩]
    [⟨1, 2, 7, 3, 4, true, false, false, false⟩] rfl

/-! ### C8: get_teams_with_recordings_in_period -/

/-- Deduplication commutes with filtering. -/
theorem dedup_filter {α : Type} [DecidableEq α] (p : α → Bool) :
    ∀ l : List α, (l.filter p).dedup = l.dedup.filter p := by
  intro l
  induction l with
  | nil => rfl
  | cons a l ih =>
    by_cases ha : a ∈ l.dedup
    · have ha2 : a ∈ l := List.mem_dedup.mp ha
      rw [List.dedup_cons_of_mem ha2]
      by_cases hp : p a = true
      · rw [List.filter_cons_of_pos hp]
        have : a ∈ l.filter p := List.mem_filter.mpr ⟨ha2, hp⟩
        rw [List.dedup_cons_of_mem this, ih]
      · rw [List.filter_cons_of_neg hp, ih]
    · have ha2 : a ∉ l := fun h => ha (List.mem_dedup.mpr h)
      rw [List.dedup_cons_of_not_mem ha2]
      by_cases hp : p a = true
      · rw [List.filter_cons_of_pos hp]
        have : a ∉ l.filter p := fun h => ha2 (List.mem_filter.mp h).1
        rw [List.dedup_cons_of_not_mem this, List.filter_cons_of_pos hp, ih]
      · rw [List.filter_cons_of_neg hp, List.filter_cons_of_neg hp, ih]

/-- Deduplication commutes with mapping an injective function. -/
theorem dedup_map_inj {α β : Type} [DecidableEq α] [DecidableEq β]
    {f : α → β} (hf : Function.Injective f) :
    ∀ l : List α, (l.map f).dedup = (l.dedup).map f := by
  intro l
  induction l with
  | nil => rfl
  | cons a l ih =>
    by_cases ha : a ∈ l
    · have hfa : f a ∈ l.map f := List.mem_map_of_mem f ha
      rw [List.map_cons, List.dedup_cons_of_mem hfa, List.dedup_cons_of_mem ha, ih]
    · have hfa : f a ∉ l.map f := by
        intro h
        obtain ⟨x, hx, hfx⟩ := List.mem_map.mp h
        exact ha (hf hfx ▸ hx)
      rw [List.map_cons, List.dedup_cons_of_not_mem hfa, List.dedup_cons_of_not_mem ha,
        List.map_cons, ih]

/-- Lookup in a list built from deduplicated keys with positive counts. -/
theorem findVal_count_list {κ : Type} [DecidableEq κ] (cnt : κ → Nat) (k : κ) :
    ∀ (keys : List κ), keys.Nodup →
      findVal (keys.filterMap (fun t => if 0 < cnt t then some (t, cnt t) else none)) k =
        if k ∈ keys ∧ 0 < cnt k then some (cnt k) else none := by
  intro keys
  induction keys with
  | nil => simp
  | cons a keys ih =>
    intro hnd
    have hnd2 : keys.Nodup := (List.nodup_cons.mp hnd).2
    have hna : a ∉ keys := (List.nodup_cons.mp hnd).1
    rw [List.filterMap_cons]
    by_cases hpos : 0 < cnt a
    · rw [if_pos hpos]
      by_cases hak : a = k
      · subst hak
        rw [findVal_cons]
        simp [hpos]
      · rw [findVal_cons, if_neg hak, ih hnd2]
        have : (k ∈ a :: keys ∧ 0 < cnt k) ↔ (k ∈ keys ∧ 0 < cnt k) := by
          constructor
          · rintro ⟨hm, hc⟩
            rcases List.mem_cons.mp hm with rfl | hm2
            · exact absurd rfl hak
            · exact ⟨hm2, hc⟩
          · rintro ⟨hm, hc⟩
            exact ⟨List.mem_cons_of_mem a hm, hc⟩
        rw [if_congr this rfl rfl]
    · rw [if_neg hpos, ih hnd2]
      by_cases hak : a = k
      · subst hak
        have h1 : ¬ (a ∈ keys ∧ 0 < cnt a) := fun h => hna h.1
        have h2 : ¬ (a ∈ a :: keys ∧ 0 < cnt a) := fun h => hpos h.2
        rw [if_neg h1, if_neg h2]
      · have : (k ∈ a :: keys ∧ 0 < cnt k) ↔ (k ∈ keys ∧ 0 < cnt k) := by
          constructor
          · rintro ⟨hm, hc⟩
            rcases List.mem_cons.mp hm with rfl | hm2
            · exact absurd rfl hak
            · exact ⟨hm2, hc⟩
          · rintro ⟨hm, hc⟩
            exact ⟨List.mem_cons_of_mem a hm, hc⟩
        rw [if_congr this rfl rfl]

/-- Specification-side first-seen timestamp: minimum `min_first_timestamp`
of the session's rows of team `t` within the lookback `[b - (e - b), e)`,
read directly off the table. -/
def firstSeenInLookback (replays : List ReplayRow) (b e : Int) (t : Nat) (sid : String) :
    Option Int :=
  ((replays.filter (fun r => decide (r.team_id = t) && decide (r.session_id = sid)
      && decide (b - (e - b) ≤ r.min_first_timestamp)
      && decide (r.min_first_timestamp < e))).map (·.min_first_timestamp)).min?

/-- Specification-side count: distinct sessions of team `t` (with a row in
the lookback) whose first-seen timestamp lies in `[b, e)`. -/
def recordingsSpecCount (replays : List ReplayRow) (b e : Int) (t : Nat) : Nat :=
  (((replays.filter (fun r => decide (r.team_id = t)
      && decide (b - (e - b) ≤ r.min_first_timestamp)
      && decide (r.min_first_timestamp < e))).map (·.session_id)).dedup.filter
    (fun sid => match firstSeenInLookback replays b e t sid with
      | none => false
      | some m => decide (b ≤ m) && decide (m < e))).length

/-- The rows of one (team, session) group of the inner query coincide with
the session's lookback rows read directly off the table. -/
theorem recRows_session_filter (replays : List ReplayRow) (b e : Int) (tids : List Nat)
    (t : Nat) (ht : t ∈ tids) (sid : String) :
    (recRows replays b e tids).filter
        (fun r => decide (r.team_id = t) && decide (r.session_id = sid)) =
      replays.filter (fun r => decide (r.team_id = t) && decide (r.session_id = sid)
        && decide (b - (e - b) ≤ r.min_first_timestamp)
        && decide (r.min_first_timestamp < e)) := by
  unfold recRows
  rw [List.filter_filter]
  apply List.filter_congr
  intro r _
  by_cases h1 : r.team_id = t
  · by_cases h2 : r.session_id = sid <;>
      by_cases h3 : b - (e - b) ≤ r.min_first_timestamp <;>
      by_cases h4 : r.min_first_timestamp < e <;>
      simp [h1, h2, h3, h4, ht]
  · simp [h1]

/-- On a group key actually present for team `t`, the implementation's
group minimum equals the specification's first-seen timestamp. -/
theorem recFirstTs_eq (replays : List ReplayRow) (b e : Int) (tids : List Nat)
    (t : Nat) (ht : t ∈ tids) (sid : String) (m : Int)
    (hm : firstSeenInLookback replays b e t sid = some m) :
    recFirstTs replays b e tids (t, sid) = m := by
  unfold recFirstTs
  rw [recRows_session_filter replays b e tids t ht sid]
  unfold firstSeenInLookback at hm
  rw [hm]
  rfl

/-- Over the lookback-selected rows of team `t`, the implementation's
grouped count equals the specification's per-team session count. -/
theorem recCnt_eq_spec (replays : List ReplayRow) (b e : Int) (tids : List Nat)
    (t : Nat) (ht : t ∈ tids) :
    recCnt replays b e tids t = recordingsSpecCount replays b e t := by
  have hinj : Function.Injective (fun s : String => (t, s)) :=
    fun a c h => congrArg Prod.snd h
  -- implementation side: count pairs with first component t
  unfold recCnt recKeys
  rw [← dedup_filter, List.filter_map]
  -- the filtered row list, implementation side
  have hXteam : ∀ r ∈ (recRows replays b e tids).filter
      ((fun k : Nat × String => decide (k.1 = t) && decide (b ≤ recFirstTs replays b e tids k)
        && decide (recFirstTs replays b e tids k < e)) ∘ (fun r => (r.team_id, r.session_id))),
      r.team_id = t := by
    intro r hr
    have hp := (List.mem_filter.mp hr).2
    simp only [Function.comp_def, Bool.and_eq_true, decide_eq_true_eq] at hp
    exact hp.1.1
  rw [show ((recRows replays b e tids).filter
      ((fun k : Nat × String => decide (k.1 = t) && decide (b ≤ recFirstTs replays b e tids k)
        && decide (recFirstTs replays b e tids k < e))
        ∘ (fun r => (r.team_id, r.session_id)))).map (fun r => (r.team_id, r.session_id)) =
      (((recRows replays b e tids).filter
      ((fun k : Nat × String => decide (k.1 = t) && decide (b ≤ recFirstTs replays b e tids k)
        && decide (recFirstTs replays b e tids k < e))
        ∘ (fun r => (r.team_id, r.session_id)))).map (·.session_id)).map (fun s => (t, s))
    from by
      rw [List.map_map]
      apply List.map_congr_left
      intro r hr
      simp [Function.comp_def, hXteam r hr]]
  rw [dedup_map_inj hinj, List.length_map]
  -- specification side
  unfold recordingsSpecCount
  rw [← dedup_filter, List.filter_map]
  -- the two filtered row lists coincide
  suffices hXY : (recRows replays b e tids).filter
      ((fun k : Nat × String => decide (k.1 = t) && decide (b ≤ recFirstTs replays b e tids k)
        && decide (recFirstTs replays b e tids k < e))
        ∘ (fun r => (r.team_id, r.session_id))) =
      (replays.filter (fun r => decide (r.team_id = t)
        && decide (b - (e - b) ≤ r.min_first_timestamp)
        && decide (r.min_first_timestamp < e))).filter
      ((fun sid => match firstSeenInLookback replays b e t sid with
        | none => false
        | some m => decide (b ≤ m) && decide (m < e)) ∘ (fun r : ReplayRow => r.session_id)) by
    rw [hXY]
  unfold recRows
  rw [List.filter_filter, List.filter_filter]
  apply List.filter_congr
  intro r _
  simp only [Function.comp_def]
  by_cases h1 : r.team_id = t
  · by_cases h3 : b - (e - b) ≤ r.min_first_timestamp
    · by_cases h4 : r.min_first_timestamp < e
      · have hrmem : r ∈ replays.filter (fun r2 => decide (r2.team_id = t)
            && decide (r2.session_id = r.session_id)
            && decide (b - (e - b) ≤ r2.min_first_timestamp)
            && decide (r2.min_first_timestamp < e)) := by
          rw [List.mem_filter]
          refine ⟨by assumption, by simp [h1, h3, h4]⟩
        obtain ⟨m, hm⟩ : ∃ m, firstSeenInLookback replays b e t r.session_id = some m := by
          cases hmin : firstSeenInLookback replays b e t r.session_id with
          | some m => exact ⟨m, rfl⟩
          | none =>
            exfalso
            unfold firstSeenInLookback at hmin
            rw [List.min?_eq_none_iff] at hmin
            have := List.mem_map_of_mem (fun r2 : ReplayRow => r2.min_first_timestamp) hrmem
            rw [hmin] at this
            exact absurd this (List.not_mem_nil _)
        have hfts := recFirstTs_eq replays b e tids t ht r.session_id m hm
        rw [h1, hfts, hm]
        simp [h3, h4, ht]
      · simp [h4]
    · simp [h3]
  · simp [h1]

/-- C8: for every window and team set, the recordings query counts, per
team of the requested set, the distinct sessions whose first-seen
timestamp — the minimum `min_first_timestamp` over the lookback
`[begin - (end - begin), end)` — falls inside `[begin, end)`; only teams
with at least one such session get an entry; and a degenerate window
(begin ≥ end) or an empty team set short-circuits to the empty map with
no query issued. -/
theorem get_teams_with_recordings_spec (replays : List ReplayRow) (b e : Int)
    (team_ids : List Nat) :
    (team_ids = [] → get_teams_with_recordings_in_period replays b e team_ids = ([], []))
    ∧ (e ≤ b → get_teams_with_recordings_in_period replays b e team_ids = ([], []))
    ∧ (b < e → ∀ t : Nat,
        (t ∈ team_ids →
          findVal (get_teams_with_recordings_in_period replays b e team_ids).1 t =
            (if 0 < recordingsSpecCount replays b e t
             then some (recordingsSpecCount replays b e t) else none))
        ∧ (t ∉ team_ids →
          findVal (get_teams_with_recordings_in_period replays b e team_ids).1 t = none))
    ∧ (b < e → team_ids ≠ [] →
        (get_teams_with_recordings_in_period replays b e team_ids).2 =
          [QueryCall.recordingsQ b e team_ids]) := by
  refine ⟨?_, ?_, ?_, ?_⟩
  · intro h
    unfold get_teams_with_recordings_in_period
    rw [if_pos h]
  · intro h
    unfold get_teams_with_recordings_in_period
    by_cases h2 : team_ids = []
    · rw [if_pos h2]
    · rw [if_neg h2, if_pos h]
  · intro hb t
    constructor
    · intro htm
      have htids : team_ids ≠ [] := List.ne_nil_of_mem htm
      unfold get_teams_with_recordings_in_period
      rw [if_neg htids, if_neg (not_le.mpr hb)]
      have hnd : (((recKeys replays b e team_ids).map (·.1)).dedup).Nodup :=
        List.nodup_dedup _
      rw [show (fun t2 => if 0 < recCnt replays b e team_ids t2
            then some (t2, recCnt replays b e team_ids t2) else none) =
          (fun t2 => if 0 < (fun x => recCnt replays b e team_ids x) t2
            then some (t2, (fun x => recCnt replays b e team_ids x) t2) else none)
        from rfl]
      rw [findVal_count_list (fun x => recCnt replays b e team_ids x) t _ hnd]
      rw [recCnt_eq_spec replays b e team_ids t htm]
      by_cases hpos : 0 < recordingsSpecCount replays b e t
      · rw [if_pos hpos]
        have hcnt : 0 < recCnt replays b e team_ids t := by
          rw [recCnt_eq_spec replays b e team_ids t htm]
          exact hpos
        have hne : ((recKeys replays b e team_ids).filter (fun k => decide (k.1 = t)
            && decide (b ≤ recFirstTs replays b e team_ids k)
            && decide (recFirstTs replays b e team_ids k < e))) ≠ [] := by
          intro hnil
          unfold recCnt at hcnt
          rw [hnil] at hcnt
          exact absurd hcnt (by simp)
        obtain ⟨k, hk⟩ := List.exists_mem_of_ne_nil _ hne
        have hk2 := List.mem_filter.mp hk
        have hk1 : k.1 = t := by
          have := hk2.2
          simp only [Bool.and_eq_true, decide_eq_true_eq] at this
          exact this.1.1
        have hmem : t ∈ ((recKeys replays b e team_ids).map (·.1)).dedup := by
          rw [List.mem_dedup]
          exact List.mem_map.mpr ⟨k, hk2.1, hk1⟩
        rw [if_pos ⟨hmem, hpos⟩]
      · rw [if_neg hpos]
        apply if_neg
        rintro ⟨_, hp⟩
        exact hpos hp
    · intro htm
      by_cases htids : team_ids = []
      · unfold get_teams_with_recordings_in_period
        rw [if_pos htids]
        rfl
      · unfold get_teams_with_recordings_in_period
        rw [if_neg htids, if_neg (not_le.mpr hb)]
        have hnd : (((recKeys replays b e team_ids).map (·.1)).dedup).Nodup :=
          List.nodup_dedup _
        rw [show (fun t2 => if 0 < recCnt replays b e team_ids t2
              then some (t2, recCnt replays b e team_ids t2) else none) =
            (fun t2 => if 0 < (fun x => recCnt replays b e team_ids x) t2
              then some (t2, (fun x => recCnt replays b e team_ids x) t2) else none)
          from rfl]
        rw [findVal_count_list (fun x => recCnt replays b e team_ids x) t _ hnd]
        apply if_neg
        rintro ⟨hmem, _⟩
        rw [List.mem_dedup] at hmem
        obtain ⟨k, hk, hk1⟩ := List.mem_map.mp hmem
        unfold recKeys at hk
        rw [List.mem_dedup] at hk
        obtain ⟨r, hr, hpair⟩ := List.mem_map.mp hk
        have hrt : r.team_id = t := by
          rw [← hk1, ← hpair]
        have hrm := (List.mem_filter.mp hr).2
        simp only [Bool.and_eq_true, decide_eq_true_eq] at hrm
        exact htm (hrt ▸ hrm.1.1)
  · intro hb htids
    unfold get_teams_with_recordings_in_period
    rw [if_neg htids, if_neg (not_le.mpr hb)]

/-- Witness for C8: one replay row (team 1, session first seen at 5) in
window [0, 10) is counted once. -/
theorem get_teams_with_recordings_spec_witness :
    findVal (get_teams_with_recordings_in_period [⟨1, "s", 5⟩] 0 10 [1]).1 1 = some 1 := by
  have h := ((get_teams_with_recordings_spec [⟨1, "s", 5⟩] 0 10 [1]).2.2.1
    (by decide) 1).1 (by decide)
  rw [h]
  decide

/-! ### C2: single-use OAuth state -/

/-- The consumed-set only ever grows. -/
theorem exchange_consumed_mono (consumed : List Nat) (r : ExchangeRequest) (n : Nat)
    (hn : n ∈ consumed) : n ∈ (toolbar_exchange consumed r).2.1 := by
  unfold toolbar_exchange
  split_ifs <;> simp [hn]

/-- One-step unfolding of a run. -/
theorem okCountFor_cons (n : Nat) (consumed : List Nat) (r : ExchangeRequest)
    (rs : List ExchangeRequest) :
    okCountFor n consumed (r :: rs) =
      (if r.state.nonce = n ∧ (toolbar_exchange consumed r).1 = ExchangeOutcome.token
       then 1 else 0) + okCountFor n (toolbar_exchange consumed r).2.1 rs := by
  have hrun : (runExchanges consumed (r :: rs)).1 =
      ((toolbar_exchange consumed r).1, (toolbar_exchange consumed r).2.2) ::
        (runExchanges (toolbar_exchange consumed r).2.1 rs).1 := rfl
  unfold okCountFor
  rw [hrun, List.zip_cons_cons, List.filter_cons]
  by_cases h1 : r.state.nonce = n
  · by_cases h2 : (toolbar_exchange consumed r).1 = ExchangeOutcome.token
    · simp [h1, h2, Nat.add_comm]
    · simp [h1, h2]
  · simp [h1]

/-- A consumed state can never be exchanged again. -/
theorem okCountFor_eq_zero (n : Nat) :
    ∀ (rs : List ExchangeRequest) (consumed : List Nat),
      n ∈ consumed → okCountFor n consumed rs = 0 := by
  intro rs
  induction rs with
  | nil => intro c _; rfl
  | cons r rs ih =>
    intro c hn
    rw [okCountFor_cons]
    have hnotok : ¬ (r.state.nonce = n ∧ (toolbar_exchange c r).1 = ExchangeOutcome.token) := by
      rintro ⟨heq, hok⟩
      unfold toolbar_exchange at hok
      split_ifs at hok with hu htm hc
      rw [heq] at hc
      exact hc hn
    rw [if_neg hnotok, Nat.zero_add]
    exact ih _ (exchange_consumed_mono c r n hn)

/-- At most one successful exchange per minted state in any run. -/
theorem okCountFor_le_one (n : Nat) :
    ∀ (rs : List ExchangeRequest) (consumed : List Nat),
      okCountFor n consumed rs ≤ if n ∈ consumed then 0 else 1 := by
  intro rs
  induction rs with
  | nil =>
    intro c
    have : okCountFor n c [] = 0 := rfl
    rw [this]
    split_ifs <;> omega
  | cons r rs ih =>
    intro c
    by_cases hn : n ∈ c
    · rw [if_pos hn, okCountFor_eq_zero n (r :: rs) c hn]
    · rw [if_neg hn, okCountFor_cons]
      by_cases hp : (r.state.nonce = n ∧ (toolbar_exchange c r).1 = ExchangeOutcome.token)
      · rw [if_pos hp]
        have hcons : n ∈ (toolbar_exchange c r).2.1 := by
          obtain ⟨h1, h2⟩ := hp
          have hstep2 : (toolbar_exchange c r).2.1 = r.state.nonce :: c := by
            unfold toolbar_exchange at h2 ⊢
            split_ifs at h2 ⊢ with hu htm hc
            rfl
          rw [hstep2, ← h1]
          exact List.mem_cons_self _ _
        rw [okCountFor_eq_zero n rs _ hcons]
      · rw [if_neg hp, Nat.zero_add]
        have h2 := ih (toolbar_exchange c r).2.1
        by_cases hm : n ∈ (toolbar_exchange c r).2.1
        · rw [if_pos hm] at h2
          omega
        · rw [if_neg hm] at h2
          exact h2

/-- After a state is consumed, every later attempt with the same state
performs no token exchange, never succeeds, and — when the session matches
the state — fails with exactly `state_replay`. -/
theorem replay_after_consumed (n : Nat) :
    ∀ (rs : List ExchangeRequest) (consumed : List Nat), n ∈ consumed →
      ∀ p ∈ rs.zip (runExchanges consumed rs).1, p.1.state.nonce = n →
        p.2.2 = 0 ∧ p.2.1 ≠ ExchangeOutcome.token ∧
        (p.1.session_user = p.1.state.user_id → p.1.session_team = p.1.state.team_id →
          p.2.1 = ExchangeOutcome.failure "state_replay") := by
  intro rs
  induction rs with
  | nil =>
    intro c _ p hp
    simp [runExchanges] at hp
  | cons r rs ih =>
    intro c hc p hp hnonce
    rw [show (runExchanges c (r :: rs)).1 =
        ((toolbar_exchange c r).1, (toolbar_exchange c r).2.2) ::
          (runExchanges (toolbar_exchange c r).2.1 rs).1 from rfl,
      List.zip_cons_cons] at hp
    rcases List.mem_cons.mp hp with heq | hp2
    · subst heq
      have hmem : r.state.nonce ∈ c := by
        rw [hnonce]
        exact hc
      by_cases hu : r.state.user_id = r.session_user
      · by_cases htm : r.state.team_id = r.session_team
        · have hstep2 : toolbar_exchange c r =
              (ExchangeOutcome.failure "state_replay", c, 0) := by
            unfold toolbar_exchange
            rw [if_neg (by simp [hu]), if_neg (by simp [htm]), if_pos hmem]
          refine ⟨by rw [hstep2], by rw [hstep2]; simp, fun _ _ => by rw [hstep2]⟩
        · have hstep2 : toolbar_exchange c r =
              (ExchangeOutcome.failure "state_team_mismatch", c, 0) := by
            unfold toolbar_exchange
            rw [if_neg (by simp [hu]), if_pos htm]
          refine ⟨by rw [hstep2], by rw [hstep2]; simp, fun _ hst => absurd hst.symm htm⟩
      · have hstep2 : toolbar_exchange c r =
            (ExchangeOutcome.failure "state_user_mismatch", c, 0) := by
          unfold toolbar_exchange
          rw [if_pos hu]
        refine ⟨by rw [hstep2], by rw [hstep2]; simp, fun hsu _ => absurd hsu.symm hu⟩
    · exact ih _ (exchange_consumed_mono c r n hc) p hp2 hnonce

/-- C2: every signed state minted at start is exchanged at most once: a
run of exchange attempts succeeds at most once per state, the first valid
exchange performs exactly one token exchange and marks the state
consumed, and every subsequent attempt with the same state value fails —
with the `state_replay` error code when the session matches — and never
performs a second token exchange. -/
theorem toolbar_state_single_use :
    (∀ (n : Nat) (consumed : List Nat) (rs : List ExchangeRequest),
        okCountFor n consumed rs ≤ if n ∈ consumed then 0 else 1)
    ∧ (∀ (consumed : List Nat) (req : ExchangeRequest) (rest : List ExchangeRequest),
        req.state.nonce ∉ consumed →
        req.session_user = req.state.user_id →
        req.session_team = req.state.team_id →
        ((runExchanges consumed (req :: rest)).1.head? =
            some (ExchangeOutcome.token, 1)
          ∧ (toolbar_exchange consumed req).2.1 = req.state.nonce :: consumed
          ∧ ∀ p ∈ rest.zip ((runExchanges (req.state.nonce :: consumed) rest).1),
              p.1.state.nonce = req.state.nonce →
              p.2.2 = 0 ∧ p.2.1 ≠ ExchangeOutcome.token ∧
              (p.1.session_user = p.1.state.user_id →
                p.1.session_team = p.1.state.team_id →
                p.2.1 = ExchangeOutcome.failure "state_replay"))) := by
  constructor
  · intro n consumed rs
    exact okCountFor_le_one n rs consumed
  · intro consumed req rest hfresh hsu hst
    have hstep : toolbar_exchange consumed req =
        (ExchangeOutcome.token, req.state.nonce :: consumed, 1) := by
      unfold toolbar_exchange
      rw [if_neg (by simp [hsu]), if_neg (by simp [hst]), if_neg hfresh]
    refine ⟨?_, by rw [hstep], ?_⟩
    · rw [show (runExchanges consumed (req :: rest)).1 =
          ((toolbar_exchange consumed req).1, (toolbar_exchange consumed req).2.2) ::
            (runExchanges (toolbar_exchange consumed req).2.1 rest).1 from rfl,
        List.head?_cons, hstep]
    · exact replay_after_consumed req.state.nonce rest (req.state.nonce :: consumed)
        (List.mem_cons_self _ _)

/-- Witness for C2: the replay scenario of the tests — the same state
exchanged twice succeeds once with one token exchange, then fails with
`state_replay` and no further token exchange. -/
theorem toolbar_state_single_use_witness :
    (runExchanges [] [⟨⟨7, 8, "ch", 42⟩, 7, 8⟩, ⟨⟨7, 8, "ch", 42⟩, 7, 8⟩]).1 =
      [(ExchangeOutcome.token, 1), (ExchangeOutcome.failure "state_replay", 0)]
    ∧ okCountFor 42 [] [⟨⟨7, 8, "ch", 42⟩, 7, 8⟩, ⟨⟨7, 8, "ch", 42⟩, 7, 8⟩] ≤ 1
    ∧ (runExchanges [] [⟨⟨7, 8, "ch", 42⟩, 7, 8⟩, ⟨⟨7, 8, "ch", 42⟩, 7, 8⟩]).1.head? =
        some (ExchangeOutcome.token, 1) := by
  refine ⟨by decide, ?_, ?_⟩
  · have h := toolbar_state_single_use.1 42 []
      [⟨⟨7, 8, "ch", 42⟩, 7, 8⟩, ⟨⟨7, 8, "ch", 42⟩, 7, 8⟩]
    simpa using h
  · exact (toolbar_state_single_use.2 [] ⟨⟨7, 8, "ch", 42⟩, 7, 8⟩
      [⟨⟨7, 8, "ch", 42⟩, 7, 8⟩] (by decide) rfl rfl).1

/-! ### C6: prepare_salesforce_update_record -/

theorem charsLe_total : ∀ x y : List Char, charsLe x y = true ∨ charsLe y x = true
  | [], _ => Or.inl rfl
  | _ :: _, [] => Or.inr rfl
  | a :: as, b :: bs => by
    unfold charsLe
    by_cases h1 : a.toNat < b.toNat
    · left
      rw [if_pos h1]
    · by_cases h2 : b.toNat < a.toNat
      · right
        rw [if_pos h2]
      · rw [if_neg h1, if_neg h2, if_neg h2, if_neg h1]
        exact charsLe_total as bs

theorem charsLe_trans : ∀ x y z : List Char,
    charsLe x y = true → charsLe y z = true → charsLe x z = true
  | [], _, _, _, _ => rfl
  | _ :: _, [], _, h1, _ => by simp [charsLe] at h1
  | _ :: _, _ :: _, [], _, h2 => by simp [charsLe] at h2
  | a :: as, b :: bs, c :: cs, h1, h2 => by
    unfold charsLe at h1 h2 ⊢
    by_cases hab : a.toNat < b.toNat
    · by_cases hbc : b.toNat < c.toNat
      · rw [if_pos (by omega : a.toNat < c.toNat)]
      · by_cases hcb : c.toNat < b.toNat
        · rw [if_neg hbc, if_pos hcb] at h2
          exact absurd h2 (by simp)
        · rw [if_pos (by omega : a.toNat < c.toNat)]
    · by_cases hba : b.toNat < a.toNat
      · rw [if_neg hab, if_pos hba] at h1
        exact absurd h1 (by simp)
      · rw [if_neg hab, if_neg hba] at h1
        by_cases hbc : b.toNat < c.toNat
        · rw [if_pos (by omega : a.toNat < c.toNat)]
        · by_cases hcb : c.toNat < b.toNat
          · rw [if_neg hbc, if_pos hcb] at h2
            exact absurd h2 (by simp)
          · rw [if_neg hbc, if_neg hcb] at h2
            rw [if_neg (by omega : ¬ a.toNat < c.toNat),
              if_neg (by omega : ¬ c.toNat < a.toNat)]
            exact charsLe_trans as bs cs h1 h2

theorem strLeB_total (a b : String) : strLeB a b = true ∨ strLeB b a = true :=
  charsLe_total a.data b.data

theorem strLeB_trans {a b c : String} (h1 : strLeB a b = true) (h2 : strLeB b c = true) :
    strLeB a c = true :=
  charsLe_trans a.data b.data c.data h1 h2

theorem perm_insertSorted (a : String) : ∀ l : List String, (insertSorted a l).Perm (a :: l)
  | [] => List.Perm.refl _
  | b :: l => by
    unfold insertSorted
    by_cases h : strLeB a b = true
    · rw [if_pos h]
    · rw [if_neg h]
      exact ((perm_insertSorted a l).cons b).trans (List.Perm.swap a b l)

theorem perm_sortStrings : ∀ l : List String, (sortStrings l).Perm l
  | [] => List.Perm.refl _
  | a :: l => by
    unfold sortStrings
    exact (perm_insertSorted a (sortStrings l)).trans ((perm_sortStrings l).cons a)

theorem pairwise_insertSorted (a : String) :
    ∀ l : List String, l.Pairwise (fun x y => strLeB x y = true) →
      (insertSorted a l).Pairwise (fun x y => strLeB x y = true)
  | [], _ => by simp [insertSorted]
  | b :: l, hl => by
    unfold insertSorted
    have hbl := List.pairwise_cons.mp hl
    by_cases h : strLeB a b = true
    · rw [if_pos h]
      refine List.pairwise_cons.mpr ⟨?_, hl⟩
      intro x hx
      rcases List.mem_cons.mp hx with rfl | hx2
      · exact h
      · exact strLeB_trans h (hbl.1 x hx2)
    · rw [if_neg h]
      have hba : strLeB b a = true := (strLeB_total a b).resolve_left h
      refine List.pairwise_cons.mpr ⟨?_, pairwise_insertSorted a l hbl.2⟩
      intro x hx
      have hx2 := (perm_insertSorted a l).mem_iff.mp hx
      rcases List.mem_cons.mp hx2 with rfl | hx3
      · exact hba
      · exact hbl.1 x hx3

theorem pairwise_sortStrings : ∀ l : List String,
    (sortStrings l).Pairwise (fun x y => strLeB x y = true)
  | [] => List.Pairwise.nil
  | a :: l => pairwise_insertSorted a (sortStrings l) (pairwise_sortStrings l)

@[simp] theorem findVal_optRat_ne (name k : String) (v : Option ℚ) (h : ¬ name = k) :
    findVal (optRat name v) k = none := by
  cases v <;> simp [optRat, findVal_cons, h]

@[simp] theorem findVal_optInt_ne (name k : String) (v : Option Int) (h : ¬ name = k) :
    findVal (optInt name v) k = none := by
  cases v <;> simp [optInt, findVal_cons, h]

theorem findVal_optRat_self (name : String) (v : Option ℚ) :
    findVal (optRat name v) name = v.map SFValue.rat := by
  cases v <;> simp [optRat, findVal_cons]

theorem findVal_optInt_self (name : String) (v : Option Int) :
    findVal (optInt name v) name = v.map SFValue.int := by
  cases v <;> simp [optInt, findVal_cons]

/-- C6: the CRM update record always carries the account id under `Id`;
every nullable field appears under its fixed name exactly when non-null
(absent when null); the two products fields are always emitted as the
comma-join of a sorted permutation of the list, with the empty list
giving the empty string. -/
theorem prepare_salesforce_update_record_spec (acc : String) (s : UsageSignals) :
    findVal (prepare_salesforce_update_record acc s) "Id" = some (.str acc)
    ∧ findVal (prepare_salesforce_update_record acc s) "posthog_active_users_7d__c" =
        some (.nat s.active_users_7d)
    ∧ findVal (prepare_salesforce_update_record acc s) "posthog_sessions_7d__c" =
        some (.nat s.sessions_7d)
    ∧ findVal (prepare_salesforce_update_record acc s) "posthog_active_users_30d__c" =
        some (.nat s.active_users_30d)
    ∧ findVal (prepare_salesforce_update_record acc s) "posthog_sessions_30d__c" =
        some (.nat s.sessions_30d)
    ∧ findVal (prepare_salesforce_update_record acc s) "posthog_events_per_session_7d__c" =
        s.events_per_session_7d.map SFValue.rat
    ∧ findVal (prepare_salesforce_update_record acc s) "posthog_insights_per_user_7d__c" =
        s.insights_per_user_7d.map SFValue.rat
    ∧ findVal (prepare_salesforce_update_record acc s) "posthog_dashboards_per_user_7d__c" =
        s.dashboards_per_user_7d.map SFValue.rat
    ∧ findVal (prepare_salesforce_update_record acc s) "posthog_events_per_session_30d__c" =
        s.events_per_session_30d.map SFValue.rat
    ∧ findVal (prepare_salesforce_update_record acc s) "posthog_insights_per_user_30d__c" =
        s.insights_per_user_30d.map SFValue.rat
    ∧ findVal (prepare_salesforce_update_record acc s) "posthog_dashboards_per_user_30d__c" =
        s.dashboards_per_user_30d.map SFValue.rat
    ∧ findVal (prepare_salesforce_update_record acc s) "posthog_active_users_7d_momentum__c" =
        s.active_users_7d_momentum.map SFValue.rat
    ∧ findVal (prepare_salesforce_update_record acc s) "posthog_sessions_7d_momentum__c" =
        s.sessions_7d_momentum.map SFValue.rat
    ∧ findVal (prepare_salesforce_update_record acc s) "posthog_eps_7d_momentum__c" =
        s.events_per_session_7d_momentum.map SFValue.rat
    ∧ findVal (prepare_salesforce_update_record acc s) "posthog_active_users_30d_momentum__c" =
        s.active_users_30d_momentum.map SFValue.rat
    ∧ findVal (prepare_salesforce_update_record acc s) "posthog_sessions_30d_momentum__c" =
        s.sessions_30d_momentum.map SFValue.rat
    ∧ findVal (prepare_salesforce_update_record acc s) "posthog_eps_30d_momentum__c" =
        s.events_per_session_30d_momentum.map SFValue.rat
    ∧ findVal (prepare_salesforce_update_record acc s) "posthog_last_login_days__c" =
        s.days_since_last_login.map SFValue.int
    ∧ findVal (prepare_salesforce_update_record acc s) "posthog_products_7d__c" =
        some (.str (joinSortedComma s.products_activated_7d))
    ∧ findVal (prepare_salesforce_update_record acc s) "posthog_products_30d__c" =
        some (.str (joinSortedComma s.products_activated_30d))
    ∧ joinSortedComma [] = ""
    ∧ (sortStrings s.products_activated_7d).Perm s.products_activated_7d
    ∧ (sortStrings s.products_activated_7d).Pairwise (fun x y => strLeB x y = true) := by
  refine ⟨?_, ?_, ?_, ?_, ?_, ?_, ?_, ?_, ?_, ?_, ?_, ?_, ?_, ?_, ?_, ?_, ?_, ?_, ?_, ?_,
    ?_, ?_, ?_⟩
  all_goals first
    | exact perm_sortStrings _
    | exact pairwise_sortStrings _
    | simp [prepare_salesforce_update_record, findVal_append, findVal_cons,
        findVal_optRat_self, findVal_optInt_self]
    | decide

/-- Witness for C6 at the tests' fixture: the 30-day product list of
test_basic_signals serializes sorted, and an all-null record keeps `Id`. -/
theorem prepare_salesforce_update_record_spec_witness :
    joinSortedComma ["analytics", "recordings", "feature_flags"] =
      "analytics,feature_flags,recordings"
    ∧ findVal (prepare_salesforce_update_record "001ABC123" UsageSignals.empty) "Id" =
        some (.str "001ABC123")
    ∧ findVal (prepare_salesforce_update_record "001ABC123" UsageSignals.empty)
        "posthog_last_login_days__c" = none := by
  refine ⟨by decide, (prepare_salesforce_update_record_spec "001ABC123" UsageSignals.empty).1, ?_⟩
  have h := (prepare_salesforce_update_record_spec "001ABC123"
    UsageSignals.empty).2.2.2.2.2.2.2.2.2.2.2.2.2.2.2.2.2.1
  simpa using h

/-! ### C7: CRM bulk update success counting -/

/-- C7: the bulk-update activity returns the number of per-record results
marked successful: an exception from the bulk call yields zero successes
(it is caught, not re-raised), a failed record leaves the count of the
remaining records unchanged and a successful one adds exactly one — each
record is inspected independently — and an empty batch returns zero. -/
theorem update_salesforce_usage_activity_spec :
    (∀ (updates : List (String × UsageSignals)) (err : String),
        update_salesforce_usage_activity updates (Except.error err) = 0)
    ∧ (∀ (updates : List (String × UsageSignals)) (results : List BulkRecordResult),
        updates ≠ [] →
        update_salesforce_usage_activity updates (Except.ok results) =
          results.countP (·.success))
    ∧ (∀ (updates : List (String × UsageSignals)) (results : List BulkRecordResult)
        (r : BulkRecordResult), updates ≠ [] → r.success = false →
        update_salesforce_usage_activity updates (Except.ok (r :: results)) =
          update_salesforce_usage_activity updates (Except.ok results))
    ∧ (∀ (updates : List (String × UsageSignals)) (results : List BulkRecordResult)
        (r : BulkRecordResult), updates ≠ [] → r.success = true →
        update_salesforce_usage_activity updates (Except.ok (r :: results)) =
          update_salesforce_usage_activity updates (Except.ok results) + 1)
    ∧ (∀ bulk : Except String (List BulkRecordResult),
        update_salesforce_usage_activity [] bulk = 0) := by
  refine ⟨?_, ?_, ?_, ?_, ?_⟩
  · intro updates err
    unfold update_salesforce_usage_activity
    by_cases h : updates = [] <;> simp [h]
  · intro updates results h
    unfold update_salesforce_usage_activity
    rw [if_neg h]
    simp [List.countP_eq_length_filter]
  · intro updates results r h hs
    unfold update_salesforce_usage_activity
    rw [if_neg h, if_neg h]
    simp [List.filter_cons, hs]
  · intro updates results r h hs
    unfold update_salesforce_usage_activity
    rw [if_neg h, if_neg h]
    simp [List.filter_cons, hs]
  · intro bulk
    unfold update_salesforce_usage_activity
    rw [if_pos rfl]

/-- Witness for C7 at the tests' fixture: three records with one failure
count two successes, and an exception counts zero. -/
theorem update_salesforce_usage_activity_spec_witness :
    update_salesforce_usage_activity [("001ABC", UsageSignals.empty)]
      (Except.ok [⟨"001ABC", true⟩, ⟨"001DEF", false⟩, ⟨"001GHI", true⟩]) = 2
    ∧ update_salesforce_usage_activity [("001ABC", UsageSignals.empty)]
        (Except.error "Salesforce API error") = 0 := by
  constructor
  · have h := update_salesforce_usage_activity_spec.2.1 [("001ABC", UsageSignals.empty)]
      [⟨"001ABC", true⟩, ⟨"001DEF", false⟩, ⟨"001GHI", true⟩] (by decide)
    rw [h]
    decide
  · exact update_salesforce_usage_activity_spec.1 [("001ABC", UsageSignals.empty)]
      "Salesforce API error"

/-! ### C4: the shared "now" and team set -/

theorem get_team_ids_log (tb : List TeamRow) (orgs : List String) (h : orgs ≠ []) :
    (get_team_ids_for_orgs tb orgs).2 = [QueryCall.teamsQ orgs] := by
  unfold get_team_ids_for_orgs
  rw [if_neg h]

theorem signals_log (ev : List EventRow) (b e : Int) (tids : List Nat) (h : tids ≠ []) :
    (get_teams_with_usage_signals_in_period ev b e tids).2 = [QueryCall.signalsQ b e tids] := by
  unfold get_teams_with_usage_signals_in_period
  rw [if_neg h]

theorem recordings_log (rp : List ReplayRow) (b e : Int) (tids : List Nat)
    (h : tids ≠ []) (hbe : b < e) :
    (get_teams_with_recordings_in_period rp b e tids).2 = [QueryCall.recordingsQ b e tids] := by
  unfold get_teams_with_recordings_in_period
  rw [if_neg h, if_neg (not_le.mpr hbe)]

theorem model_count_log (rows : List ModelRow) (orgs : List String) (a b : Int)
    (tag : QueryCall) (h : orgs ≠ []) :
    (get_org_model_count rows orgs a b tag).2 = [tag] := by
  unfold get_org_model_count
  rw [if_neg h]

theorem login_log (mb : List MembershipRow) (now : Int) (orgs : List String) (h : orgs ≠ []) :
    (get_org_login_recency mb now orgs).2 = [QueryCall.loginQ orgs now] := by
  unfold get_org_login_recency
  rw [if_neg h]

theorem fetch_period_log (store : Store) (tids : List Nat) (orgs : List String)
    (a b c : Int) (h : tids ≠ []) (ho : orgs ≠ []) (hab : a < b) :
    (fetch_period_data store tids orgs a b c).2 =
      [QueryCall.signalsQ a b tids, QueryCall.signalsQ c a tids,
       QueryCall.recordingsQ a b tids, QueryCall.dashboardsQ a b orgs,
       QueryCall.insightsQ a b orgs] := by
  unfold fetch_period_data
  simp only []
  rw [signals_log store.events a b tids h, signals_log store.events c a tids h,
    recordings_log store.replays a b tids h hab,
    model_count_log store.dashboards orgs a b (QueryCall.dashboardsQ a b orgs) ho,
    model_count_log store.insights orgs a b (QueryCall.insightsQ a b orgs) ho]
  rfl

/-- C4 (amended): within one orchestration call every windowed fetch
observes the same orchestrator clock reading `n1` — the four windows
[n1-7d, n1), [n1-14d, n1-7d), [n1-30d, n1), [n1-60d, n1-30d) — and the
same flattened team set; the login-recency fetch, however, reads the
clock a second time (`n2`, inside `get_org_login_recency`) and the
reported days-since-last-login is computed against that second reading,
not against `n1`. -/
theorem orchestration_fetch_windows_spec (store : Store) (n1 n2 : Int)
    (orgs : List String) (h1 : orgs ≠ []) (h2 : allTeamIds store orgs ≠ []) :
    ((aggregate_usage_signals_for_orgs store n1 n2 orgs).2 =
      [QueryCall.teamsQ orgs,
       QueryCall.signalsQ (n1 - 7 * 86400) n1 (allTeamIds store orgs),
       QueryCall.signalsQ ((n1 - 7 * 86400) - 7 * 86400) (n1 - 7 * 86400)
         (allTeamIds store orgs),
       QueryCall.recordingsQ (n1 - 7 * 86400) n1 (allTeamIds store orgs),
       QueryCall.dashboardsQ (n1 - 7 * 86400) n1 orgs,
       QueryCall.insightsQ (n1 - 7 * 86400) n1 orgs,
       QueryCall.signalsQ (n1 - 30 * 86400) n1 (allTeamIds store orgs),
       QueryCall.signalsQ ((n1 - 30 * 86400) - 30 * 86400) (n1 - 30 * 86400)
         (allTeamIds store orgs),
       QueryCall.recordingsQ (n1 - 30 * 86400) n1 (allTeamIds store orgs),
       QueryCall.dashboardsQ (n1 - 30 * 86400) n1 orgs,
       QueryCall.insightsQ (n1 - 30 * 86400) n1 orgs,
       QueryCall.loginQ orgs n2])
    ∧ (∀ (oid : String) (v : UsageSignals),
        findVal (aggregate_usage_signals_for_orgs store n1 n2 orgs).1 oid = some v →
        v.days_since_last_login =
          (findVal (get_org_login_recency store.memberships n2 orgs).1 oid).getD none) := by
  constructor
  · unfold aggregate_usage_signals_for_orgs
    rw [if_neg h1, if_neg h2]
    simp only []
    rw [get_team_ids_log store.teams orgs h1,
      fetch_period_log store (allTeamIds store orgs) orgs
        (n1 - 7 * 86400) n1 ((n1 - 7 * 86400) - 7 * 86400) h2 h1 (by omega),
      fetch_period_log store (allTeamIds store orgs) orgs
        (n1 - 30 * 86400) n1 ((n1 - 30 * 86400) - 30 * 86400) h2 h1 (by omega),
      login_log store.memberships n2 orgs h1]
    rfl
  · intro oid v h
    unfold aggregate_usage_signals_for_orgs at h
    rw [if_neg h1, if_neg h2] at h
    have hv := findVal_map_some
      (fun x => build_org_signals (get_team_ids_for_orgs store.teams orgs).1
        (fetch_period_data store (allTeamIds store orgs) orgs
          (n1 - 7 * 86400) n1 ((n1 - 7 * 86400) - 7 * 86400)).1
        (fetch_period_data store (allTeamIds store orgs) orgs
          (n1 - 30 * 86400) n1 ((n1 - 30 * 86400) - 30 * 86400)).1
        (get_org_login_recency store.memberships n2 orgs).1 x)
      (firstDedup orgs) oid v h
    rw [hv]
    rfl

/-- C4 (counterexample): the orchestration output is not a function of
the orchestrator's single clock reading — varying only the second clock
reading (the one taken inside `get_org_login_recency`) changes the
reported days-since-last-login, so the login-recency fetch does not
observe the same "now" as the windowed fetches. -/
theorem orchestration_single_now_counterexample :
    ¬ (∀ (store : Store) (n1 n2 n2q : Int) (orgs : List String),
        aggregate_usage_signals_for_orgs store n1 n2 orgs =
          aggregate_usage_signals_for_orgs store n1 n2q orgs) := by
  intro hall
  have h := congrArg (fun x => (findVal x.1 "a").map (·.days_since_last_login))
    (hall ⟨[⟨1, "a"⟩], [], [], [], [], [⟨"a", some 0⟩]⟩ 0 86400 0 ["a"])
  rw [show (fun x : List (String × UsageSignals) × List QueryCall =>
        (findVal x.1 "a").map (·.days_since_last_login))
          (aggregate_usage_signals_for_orgs ⟨[⟨1, "a"⟩], [], [], [], [], [⟨"a", some 0⟩]⟩
            0 86400 ["a"]) = some (some 1) from by decide,
      show (fun x : List (String × UsageSignals) × List QueryCall =>
        (findVal x.1 "a").map (·.days_since_last_login))
          (aggregate_usage_signals_for_orgs ⟨[⟨1, "a"⟩], [], [], [], [], [⟨"a", some 0⟩]⟩
            0 0 ["a"]) = some (some 0) from by decide] at h
  exact absurd h (by decide)

/-- Witness for the amended C4 on a concrete store with one org and one
team. -/
theorem orchestration_fetch_windows_spec_witness :
    (aggregate_usage_signals_for_orgs ⟨[⟨1, "a"⟩], [], [], [], [], [⟨"a", some 0⟩]⟩
        0 86400 ["a"]).2 =
      [QueryCall.teamsQ ["a"],
       QueryCall.signalsQ (-604800) 0 [1], QueryCall.signalsQ (-1209600) (-604800) [1],
       QueryCall.recordingsQ (-604800) 0 [1], QueryCall.dashboardsQ (-604800) 0 ["a"],
       QueryCall.insightsQ (-604800) 0 ["a"],
       QueryCall.signalsQ (-2592000) 0 [1], QueryCall.signalsQ (-5184000) (-2592000) [1],
       QueryCall.recordingsQ (-2592000) 0 [1], QueryCall.dashboardsQ (-2592000) 0 ["a"],
       QueryCall.insightsQ (-2592000) 0 ["a"],
       QueryCall.loginQ ["a"] 86400] := by
  have h := (orchestration_fetch_windows_spec ⟨[⟨1, "a"⟩], [], [], [], [], [⟨"a", some 0⟩]⟩
    0 86400 ["a"] (by decide) (by decide)).1
  rw [h]
  decide

/-! ### C5: coverage of the output map -/

/-- An organization with no teams aggregates to the default record in
every field except `days_since_last_login`, which still carries the
login-recency value. -/
theorem build_org_signals_no_teams (ott : List (String × List Nat)) (p7 p30 : PeriodData)
    (lr : List (String × Option Int)) (oid : String)
    (h : findValD ott oid [] = []) :
    build_org_signals ott p7 p30 lr oid =
      { UsageSignals.empty with days_since_last_login := (findVal lr oid).getD none } := by
  unfold build_org_signals
  rw [h]
  simp [aggregate_teams_to_org, OrgAggregatedSignals.empty, get_products_with_recordings,
    per_user_metric, calc_momentum, calc_eps_momentum, UsageSignals.empty]

/-- C5 (amended): the output map has an entry for every input id; when
the flattened team set is empty every organization gets the all-default
record and no store query beyond the team resolution is issued; and an
organization with zero resolved teams gets the all-default record in
every field except `days_since_last_login`, which carries its
login-recency value (login recency is membership-based, not team-based). -/
theorem orchestration_coverage_spec :
    (∀ (store : Store) (n1 n2 : Int) (orgs : List String) (oid : String),
        oid ∈ orgs →
        ∃ v, findVal (aggregate_usage_signals_for_orgs store n1 n2 orgs).1 oid = some v)
    ∧ (∀ (store : Store) (n1 n2 : Int) (orgs : List String), orgs ≠ [] →
        allTeamIds store orgs = [] →
        (aggregate_usage_signals_for_orgs store n1 n2 orgs).1 =
            (firstDedup orgs).map (fun oid => (oid, UsageSignals.empty))
          ∧ (aggregate_usage_signals_for_orgs store n1 n2 orgs).2 =
            [QueryCall.teamsQ orgs])
    ∧ (∀ (store : Store) (n1 n2 : Int) (orgs : List String) (oid : String)
        (v : UsageSignals),
        allTeamIds store orgs ≠ [] →
        findValD (get_team_ids_for_orgs store.teams orgs).1 oid [] = [] →
        findVal (aggregate_usage_signals_for_orgs store n1 n2 orgs).1 oid = some v →
        v = { UsageSignals.empty with days_since_last_login :=
          (findVal (get_org_login_recency store.memberships n2 orgs).1 oid).getD none }) := by
  refine ⟨?_, ?_, ?_⟩
  · intro store n1 n2 orgs oid hmem
    have horgs : orgs ≠ [] := List.ne_nil_of_mem hmem
    unfold aggregate_usage_signals_for_orgs
    rw [if_neg horgs]
    by_cases hteam : allTeamIds store orgs = []
    · rw [if_pos hteam]
      exact ⟨UsageSignals.empty,
        findVal_map_self (fun _ => UsageSignals.empty) (firstDedup orgs) oid
          (mem_firstDedup.mpr hmem)⟩
    · rw [if_neg hteam]
      exact ⟨_, findVal_map_self _ (firstDedup orgs) oid (mem_firstDedup.mpr hmem)⟩
  · intro store n1 n2 orgs horgs hteam
    unfold aggregate_usage_signals_for_orgs
    rw [if_neg horgs, if_pos hteam]
    exact ⟨rfl, get_team_ids_log store.teams orgs horgs⟩
  · intro store n1 n2 orgs oid v hteam hzero h
    by_cases horgs : orgs = []
    · rw [horgs] at h
      simp [aggregate_usage_signals_for_orgs, findVal] at h
    · unfold aggregate_usage_signals_for_orgs at h
      rw [if_neg horgs, if_neg hteam] at h
      have hv := findVal_map_some
        (fun x => build_org_signals (get_team_ids_for_orgs store.teams orgs).1
          (fetch_period_data store (allTeamIds store orgs) orgs
            (n1 - 7 * 86400) n1 ((n1 - 7 * 86400) - 7 * 86400)).1
          (fetch_period_data store (allTeamIds store orgs) orgs
            (n1 - 30 * 86400) n1 ((n1 - 30 * 86400) - 30 * 86400)).1
          (get_org_login_recency store.memberships n2 orgs).1 x)
        (firstDedup orgs) oid v h
      rw [hv]
      exact build_org_signals_no_teams _ _ _ _ oid hzero

/-- C5 (counterexample): an organization with zero resolved teams whose
members have login history does not get the all-default record — its
`days_since_last_login` is populated (here 5 days), while the default
record has null. -/
theorem zero_team_org_not_all_default :
    (findVal (aggregate_usage_signals_for_orgs
        ⟨[⟨1, "b"⟩], [], [], [], [], [⟨"a", some 0⟩]⟩ 432000 432000 ["a", "b"]).1 "a").map
      (·.days_since_last_login) = some (some 5)
    ∧ UsageSignals.empty.days_since_last_login = none :=
  ⟨by decide, rfl⟩

/-- Witness for the amended C5 on the counterexample store. -/
theorem orchestration_coverage_spec_witness :
    findVal (aggregate_usage_signals_for_orgs
        ⟨[⟨1, "b"⟩], [], [], [], [], [⟨"a", some 0⟩]⟩ 432000 432000 ["a", "b"]).1 "a" =
      some { UsageSignals.empty with days_since_last_login := some 5 } := by
  obtain ⟨v, hv⟩ := orchestration_coverage_spec.1
    ⟨[⟨1, "b"⟩], [], [], [], [], [⟨"a", some 0⟩]⟩ 432000 432000 ["a", "b"] "a" (by decide)
  have h3 := orchestration_coverage_spec.2.2
    ⟨[⟨1, "b"⟩], [], [], [], [], [⟨"a", some 0⟩]⟩ 432000 432000 ["a", "b"] "a" v
    (by decide) (by decide) hv
  rw [hv, h3]
  decide

end Posthog
